import Mathlib

/-!
Verification development for the `df-sol` project scaffolding generator
(`src/lib.rs`, `src/rust_template.rs`, `src/main.rs`).

The filesystem is modelled as an association list from paths (lists of
path components) to nodes (directories, or files holding either plain
text or an opaque keypair blob; the spec declares cryptographic keypair
serialization out of scope, so keypair files are modelled as opaque
blobs distinguishable from arbitrary text, which models unreadable or
corrupt files).  All operations are executable and mirror the Rust
`std::fs` calls the source makes: `fs::create_dir_all`, `fs::create_dir`,
`fs::write` / `File::create` + `write_all` (create-or-truncate),
`OpenOptions::write(true).truncate(true)`, and `fs::remove_dir_all`.
-/

/-- A path is a list of components, e.g. `["programs", "my-app", "Cargo.toml"]`. -/
abbrev FilePathM := List String

/-- An opaque keypair: only its public identifier matters to the program.
The spec's non-goals section restricts keypair semantics to "produce an
opaque keypair blob", so the secret material is not modelled. -/
structure Keypair where
  pk : String
deriving DecidableEq

/-- File contents: either plain text, or the serialized form of a keypair.
A keypair file that holds `text` models a missing-or-corrupt keypair file:
`read_keypair_file` fails on it exactly as it fails on unparseable bytes. -/
inductive FData where
  | text (s : String)
  | blob (k : Keypair)
deriving DecidableEq

/-- A filesystem node. -/
inductive Node where
  | dir
  | file (content : FData)
deriving DecidableEq

/-- Filesystem state: an association list from paths to nodes; the first
binding for a path wins. -/
abbrev FsState := List (FilePathM × Node)

/-- Array of (path, content) tuples, mirroring `type Files = Vec<(PathBuf, String)>`
from `src/lib.rs`. -/
abbrev FilesM := List (FilePathM × String)

def lookupN : FsState → FilePathM → Option Node
  | [], _ => none
  | e :: rest, p => if e.1 = p then some e.2 else lookupN rest p

/-- Set (create or replace) the node at a path; the new binding shadows old ones. -/
def setN (s : FsState) (p : FilePathM) (n : Node) : FsState := (p, n) :: s

/-- `Path::exists` on the modelled filesystem. -/
def pathExistsN (s : FsState) (p : FilePathM) : Bool := (lookupN s p).isSome

/-- Boolean list-prefix test on paths. -/
def isPrefixB : FilePathM → FilePathM → Bool
  | [], _ => true
  | _ :: _, [] => false
  | a :: as, b :: bs => a == b && isPrefixB as bs

/-- `Path::extension().is_some()` on the final path component: Rust returns an
extension exactly when the file name has a `.` at an index greater than zero. -/
def hasExt (p : FilePathM) : Bool :=
  match p.getLast? with
  | none => false
  | some c => (c.data.drop 1).contains '.'

theorem lookupN_setN (s : FsState) (p : FilePathM) (n : Node) (q : FilePathM) :
    lookupN (setN s p n) q = if p = q then some n else lookupN s q := by
  simp [setN, lookupN]

theorem lookupN_setN_self (s : FsState) (p : FilePathM) (n : Node) :
    lookupN (setN s p n) p = some n := by
  simp [lookupN_setN]

theorem lookupN_setN_ne (s : FsState) (p : FilePathM) (n : Node) (q : FilePathM)
    (h : p ≠ q) : lookupN (setN s p n) q = lookupN s q := by
  simp [lookupN_setN, h]

theorem lookupN_filter (s : FsState) (f : FilePathM × Node → Bool) (q : FilePathM)
    (hq : ∀ n : Node, f (q, n) = true) :
    lookupN (s.filter f) q = lookupN s q := by
  induction s with
  | nil => rfl
  | cons e rest ih =>
    by_cases he : e.1 = q
    · have : f e = true := by
        have := hq e.2
        rwa [show (q, e.2) = e by rw [← he]] at this
      simp [List.filter, this, lookupN, he, ih]
    · cases hf : f e <;> simp [List.filter, hf, lookupN, he, ih]

theorem lookupN_filter_dropped (s : FsState) (f : FilePathM × Node → Bool) (q : FilePathM)
    (hq : ∀ n : Node, f (q, n) = false) :
    lookupN (s.filter f) q = none := by
  induction s with
  | nil => rfl
  | cons e rest ih =>
    by_cases he : e.1 = q
    · have : f e = false := by
        have := hq e.2
        rwa [show (q, e.2) = e by rw [← he]] at this
      simp [List.filter, this, lookupN, he, ih]
    · cases hf : f e <;> simp [List.filter, hf, lookupN, he, ih]

theorem isPrefixB_iff (a b : FilePathM) : isPrefixB a b = true ↔ ∃ t, a ++ t = b := by
  induction a generalizing b with
  | nil => simp [isPrefixB]
  | cons x xs ih =>
    cases b with
    | nil =>
      simp only [isPrefixB]
      constructor
      · intro h; cases h
      · rintro ⟨t, ht⟩; cases ht
    | cons y ys =>
      simp only [isPrefixB, Bool.and_eq_true, beq_iff_eq, ih]
      constructor
      · rintro ⟨rfl, t, rfl⟩; exact ⟨t, rfl⟩
      · rintro ⟨t, ht⟩
        injection ht with h1 h2
        exact ⟨h1, t, h2⟩

theorem isPrefixB_refl (a : FilePathM) : isPrefixB a a = true := by
  rw [isPrefixB_iff]; exact ⟨[], by simp⟩

theorem isPrefixB_trans_of_append (a : FilePathM) (t : List String) (b : FilePathM)
    (h : isPrefixB (a ++ t) b = true) : isPrefixB a b = true := by
  rw [isPrefixB_iff] at h ⊢
  obtain ⟨u, hu⟩ := h
  exact ⟨t ++ u, by rw [← hu, List.append_assoc]⟩

/-- One `create_dir` step inside `create_dir_all`: a no-op on an existing
directory, an error on a file, creation otherwise.  The list logs the
directories actually created. -/
def addDir (s : FsState) (q : FilePathM) : Option (FsState × List FilePathM) :=
  match lookupN s q with
  | some .dir => some (s, [])
  | some (.file _) => none
  | none => some (setN s q .dir, [q])

/-- Walk the components of a path under `base`, creating each missing
directory in order (the effect of `fs::create_dir_all`). -/
def mkdirFrom (s : FsState) (base : FilePathM) : List String → Option (FsState × List FilePathM)
  | [] => some (s, [])
  | c :: rest =>
    match addDir s (base ++ [c]) with
    | none => none
    | some (s1, l1) =>
      match mkdirFrom s1 (base ++ [c]) rest with
      | none => none
      | some (s2, l2) => some (s2, l1 ++ l2)

/-- `fs::create_dir_all`; `create_dir_all("")` is `Ok` and a no-op. -/
def createDirAllT (s : FsState) (p : FilePathM) : Option (FsState × List FilePathM) :=
  mkdirFrom s [] p

/-- `fs::write`, and also `File::create` followed by `write_all`:
create-or-truncate.  Fails on a directory or when the parent directory is
missing. -/
def writeT (s : FsState) (p : FilePathM) (c : FData) : Option FsState :=
  if lookupN s p = some .dir then none
  else if p.dropLast = [] ∨ lookupN s p.dropLast = some .dir then some (setN s p (.file c))
  else none

/-- `fs::remove_dir_all`: fails when the path is missing or not a directory,
otherwise removes the whole subtree rooted at the path. -/
def removeDirAllT (s : FsState) (p : FilePathM) : Option FsState :=
  match lookupN s p with
  | some .dir => some (s.filter (fun e => !(isPrefixB p e.1)))
  | _ => none

/-- Filesystem well-formedness: every existing path of depth at least two
hangs under a directory parent — true of any real on-disk tree. -/
def WFState (s : FsState) : Prop :=
  ∀ p : FilePathM, pathExistsN s p = true → p ≠ [] →
    p.dropLast = [] ∨ lookupN s p.dropLast = some .dir


theorem addDir_changes (s : FsState) (q : FilePathM) (s' : FsState) (l : List FilePathM)
    (h : addDir s q = some (s', l)) :
    (∀ r, r ≠ q → lookupN s' r = lookupN s r) ∧ lookupN s' q = some .dir ∧
      (lookupN s q = none → s' = setN s q .dir) ∧ (lookupN s q = some .dir → s' = s) := by
  unfold addDir at h
  split at h
  · -- existing directory: no-op
    rename_i heq
    injection h with h'
    cases h'
    refine ⟨fun r _ => rfl, heq, ?_, fun _ => rfl⟩
    intro hn
    rw [heq] at hn
    simp at hn
  · -- existing file: error
    simp at h
  · -- absent: create
    rename_i heq
    injection h with h'
    cases h'
    refine ⟨fun r hr => lookupN_setN_ne _ _ _ _ (fun he => hr he.symm),
            lookupN_setN_self _ _ _, fun _ => rfl, ?_⟩
    intro hd
    rw [heq] at hd
    simp at hd


theorem mkdirFrom_changes (cs : List String) :
    ∀ (s : FsState) (base : FilePathM) (s' : FsState) (l : List FilePathM),
      mkdirFrom s base cs = some (s', l) →
      ∀ r, lookupN s' r ≠ lookupN s r →
        lookupN s r = none ∧ lookupN s' r = some .dir ∧
          ∃ q, q ≠ [] ∧ isPrefixB q cs = true ∧ r = base ++ q := by
  induction cs with
  | nil =>
    intro s base s' l h r hr
    unfold mkdirFrom at h
    injection h with h'
    cases h'
    exact absurd rfl hr
  | cons c rest ih =>
    intro s base s' l h r hr
    unfold mkdirFrom at h
    split at h
    · simp at h
    · rename_i s1 l1 heq1
      split at h
      · simp at h
      · rename_i s2 l2 heq2
        injection h with h'
        cases h'
        obtain ⟨had_ne, had_dir, had_new, had_old⟩ :=
          addDir_changes s (base ++ [c]) s1 l1 heq1
        by_cases hstep : lookupN s1 r = lookupN s r
        · have hr2 : lookupN s' r ≠ lookupN s1 r := by rw [hstep]; exact hr
          obtain ⟨hnone, hdir, q, hqne, hqpre, hqeq⟩ :=
            ih s1 (base ++ [c]) s' l2 heq2 r hr2
          refine ⟨by rw [← hstep]; exact hnone, hdir, c :: q, by simp, ?_,
                  by rw [hqeq]; simp⟩
          simp [isPrefixB, hqpre]
        · have hreq : r = base ++ [c] := by
            by_contra hne
            exact hstep (had_ne r hne)
          subst hreq
          have hnone : lookupN s (base ++ [c]) = none := by
            cases ho : lookupN s (base ++ [c]) with
            | none => rfl
            | some n =>
              cases n with
              | dir => exact absurd (by rw [had_old ho]) hstep
              | file d =>
                unfold addDir at heq1
                rw [ho] at heq1
                simp at heq1
          have hfin : lookupN s' (base ++ [c]) = some .dir := by
            by_cases hch : lookupN s' (base ++ [c]) = lookupN s1 (base ++ [c])
            · rw [hch]; exact had_dir
            · obtain ⟨hn, _, _⟩ := ih s1 (base ++ [c]) s' l2 heq2 _ hch
              rw [had_dir] at hn
              cases hn
          exact ⟨hnone, hfin, [c], by simp, by simp [isPrefixB], rfl⟩

theorem mkdirFrom_preserve (cs : List String) (s : FsState) (base : FilePathM)
    (s' : FsState) (l : List FilePathM) (h : mkdirFrom s base cs = some (s', l))
    (r : FilePathM) (n : Node) (hr : lookupN s r = some n) : lookupN s' r = some n := by
  by_cases hch : lookupN s' r = lookupN s r
  · rw [hch]; exact hr
  · obtain ⟨hnone, _, _⟩ := mkdirFrom_changes cs s base s' l h r hch
    rw [hr] at hnone
    cases hnone

theorem mkdirFrom_post (cs : List String) :
    ∀ (s : FsState) (base : FilePathM) (s' : FsState) (l : List FilePathM),
      mkdirFrom s base cs = some (s', l) →
      ∀ q, q ≠ [] → isPrefixB q cs = true → lookupN s' (base ++ q) = some .dir := by
  induction cs with
  | nil =>
    intro s base s' l h q hq hpre
    cases q with
    | nil => exact absurd rfl hq
    | cons a as => cases hpre
  | cons c rest ih =>
    intro s base s' l h q hq hpre
    unfold mkdirFrom at h
    split at h
    · simp at h
    · rename_i s1 l1 heq1
      split at h
      · simp at h
      · rename_i s2 l2 heq2
        injection h with h'
        cases h'
        cases q with
        | nil => exact absurd rfl hq
        | cons a as =>
          simp only [isPrefixB, Bool.and_eq_true, beq_iff_eq] at hpre
          obtain ⟨rfl, has⟩ := hpre
          by_cases has0 : as = []
          · subst has0
            obtain ⟨_, had_dir, _, _⟩ := addDir_changes s (base ++ [a]) s1 l1 heq1
            exact mkdirFrom_preserve rest s1 (base ++ [a]) s' l2 heq2 _ _ had_dir
          · have := ih s1 (base ++ [a]) s' l2 heq2 as has0 has
            rw [List.append_assoc] at this
            simpa using this

theorem ne_append_of_ne_nil {α : Type} (l q : List α) (hq : q ≠ []) : l ≠ l ++ q := by
  intro he
  have := congrArg List.length he
  simp [List.length_append] at this
  exact hq this

theorem dropLast_ne_self {α : Type} (p : List α) (hp : p ≠ []) : p.dropLast ≠ p := by
  intro he
  have := congrArg List.length he
  rw [List.length_dropLast] at this
  have hpos : 0 < p.length := List.length_pos.mpr hp
  omega

theorem isPrefixB_trans (a b c : FilePathM) (h1 : isPrefixB a b = true)
    (h2 : isPrefixB b c = true) : isPrefixB a c = true := by
  rw [isPrefixB_iff] at h1 h2 ⊢
  obtain ⟨t, rfl⟩ := h1
  obtain ⟨u, rfl⟩ := h2
  exact ⟨t ++ u, by rw [List.append_assoc]⟩

theorem isPrefixB_proper_dropLast (q r : FilePathM) (h : isPrefixB q r = true)
    (hne : q ≠ r) : isPrefixB q r.dropLast = true := by
  rw [isPrefixB_iff] at h
  obtain ⟨t, rfl⟩ := h
  have ht : t ≠ [] := by
    intro h0
    subst h0
    simp at hne
  rw [isPrefixB_iff]
  exact ⟨t.dropLast, by rw [List.dropLast_append_of_ne_nil _ ht]⟩

theorem mkdirFrom_ok (cs : List String) :
    ∀ (s : FsState) (base : FilePathM),
      (∀ q, q ≠ [] → isPrefixB q cs = true → ∀ d, lookupN s (base ++ q) ≠ some (.file d)) →
      ∃ s' l, mkdirFrom s base cs = some (s', l) := by
  induction cs with
  | nil => intro s base _; exact ⟨s, [], rfl⟩
  | cons c rest ih =>
    intro s base h
    have hc := h [c] (by simp) (by simp [isPrefixB])
    have hbody : ∃ s1, addDir s (base ++ [c]) = some (s1, if lookupN s (base ++ [c]) = none then [base ++ [c]] else []) ∧
        (∀ r, lookupN s1 r = lookupN s r ∨ (r = base ++ [c] ∧ lookupN s1 r = some .dir)) := by
      unfold addDir
      cases hl : lookupN s (base ++ [c]) with
      | none =>
        refine ⟨setN s (base ++ [c]) .dir, by simp, fun r => ?_⟩
        by_cases hr : base ++ [c] = r
        · subst hr; exact Or.inr ⟨rfl, lookupN_setN_self _ _ _⟩
        · exact Or.inl (lookupN_setN_ne _ _ _ _ hr)
      | some n =>
        cases n with
        | dir => exact ⟨s, by simp [hl], fun r => Or.inl rfl⟩
        | file d => exact absurd hl (hc d)
    obtain ⟨s1, heq1, hch⟩ := hbody
    have hrest : ∃ s' l, mkdirFrom s1 (base ++ [c]) rest = some (s', l) := by
      apply ih
      intro q hq hpre d hl
      rcases hch ((base ++ [c]) ++ q) with hsame | ⟨heqp, _⟩
      · rw [hsame] at hl
        have : lookupN s (base ++ (c :: q)) = some (.file d) := by
          rw [show base ++ (c :: q) = (base ++ [c]) ++ q by simp]
          exact hl
        exact h (c :: q) (by simp) (by simp [isPrefixB, hpre]) d this
      · exact ne_append_of_ne_nil (base ++ [c]) q hq heqp.symm
    obtain ⟨s', l, heq2⟩ := hrest
    refine ⟨s', (if lookupN s (base ++ [c]) = none then [base ++ [c]] else []) ++ l, ?_⟩
    simp only [mkdirFrom, heq1, heq2]

theorem writeT_eq (s : FsState) (p : FilePathM) (c : FData)
    (h1 : lookupN s p ≠ some .dir)
    (h2 : p.dropLast = [] ∨ lookupN s p.dropLast = some .dir) :
    writeT s p c = some (setN s p (.file c)) := by
  simp [writeT, h1, h2]

theorem writeT_some (s : FsState) (p : FilePathM) (c : FData) (s' : FsState)
    (h : writeT s p c = some s') :
    s' = setN s p (.file c) ∧ lookupN s p ≠ some .dir ∧
      (p.dropLast = [] ∨ lookupN s p.dropLast = some .dir) := by
  unfold writeT at h
  split at h
  · simp at h
  · split at h
    · injection h with h'
      exact ⟨h'.symm, by assumption, by assumption⟩
    · simp at h

theorem removeDirAllT_eq (s : FsState) (p : FilePathM) (h : lookupN s p = some .dir) :
    removeDirAllT s p = some (s.filter (fun e => !(isPrefixB p e.1))) := by
  simp [removeDirAllT, h]

theorem removeDirAllT_some (s : FsState) (p : FilePathM) (s' : FsState)
    (h : removeDirAllT s p = some s') :
    lookupN s p = some .dir ∧ s' = s.filter (fun e => !(isPrefixB p e.1)) := by
  unfold removeDirAllT at h
  split at h
  · rename_i hdir
    injection h with h'
    exact ⟨hdir, h'.symm⟩
  · simp at h

theorem lookupN_removeSub_out (s : FsState) (pfx r : FilePathM)
    (hr : isPrefixB pfx r = false) :
    lookupN (s.filter (fun e => !(isPrefixB pfx e.1))) r = lookupN s r :=
  lookupN_filter s _ r (fun _ => by simp [hr])

theorem lookupN_removeSub_in (s : FsState) (pfx r : FilePathM)
    (hr : isPrefixB pfx r = true) :
    lookupN (s.filter (fun e => !(isPrefixB pfx e.1))) r = none :=
  lookupN_filter_dropped s _ r (fun _ => by simp [hr])

theorem wf_writeT (s : FsState) (p : FilePathM) (c : FData) (s' : FsState)
    (hwf : WFState s) (h : writeT s p c = some s') : WFState s' := by
  obtain ⟨rfl, hnd, hpar⟩ := writeT_some s p c s' h
  intro r hex hne
  by_cases hrp : r = p
  · subst hrp
    rcases hpar with hroot | hdir
    · exact Or.inl hroot
    · refine Or.inr ?_
      rw [lookupN_setN_ne _ _ _ _ (fun he => dropLast_ne_self r hne (he.symm))]
      exact hdir
  · have hlr : lookupN (setN s p (.file c)) r = lookupN s r :=
      lookupN_setN_ne _ _ _ _ (fun he => hrp he.symm)
    have hex0 : pathExistsN s r = true := by
      rw [pathExistsN, ← hlr]
      exact hex
    rcases hwf r hex0 hne with hroot | hdir
    · exact Or.inl hroot
    · refine Or.inr ?_
      have hdp : p ≠ r.dropLast := by
        intro he
        rw [← he] at hdir
        exact hnd hdir
      rw [lookupN_setN_ne _ _ _ _ hdp]
      exact hdir

theorem wf_mkdirFrom (cs : List String) :
    ∀ (s : FsState) (base : FilePathM) (s' : FsState) (l : List FilePathM),
      WFState s → (base = [] ∨ lookupN s base = some .dir) →
      mkdirFrom s base cs = some (s', l) → WFState s' := by
  induction cs with
  | nil =>
    intro s base s' l hwf _ h
    unfold mkdirFrom at h
    injection h with h'
    cases h'
    exact hwf
  | cons c rest ih =>
    intro s base s' l hwf hbase h
    unfold mkdirFrom at h
    split at h
    · simp at h
    · rename_i s1 l1 heq1
      split at h
      · simp at h
      · rename_i s2 l2 heq2
        injection h with h'
        cases h'
        obtain ⟨had_ne, had_dir, had_new, had_old⟩ := addDir_changes s (base ++ [c]) s1 l1 heq1
        have hwf1 : WFState s1 := by
          cases hl : lookupN s (base ++ [c]) with
          | some n =>
            cases n with
            | dir => rw [had_old hl]; exact hwf
            | file d =>
              unfold addDir at heq1
              rw [hl] at heq1
              simp at heq1
          | none =>
            rw [had_new hl]
            intro r hex hne
            by_cases hrc : r = base ++ [c]
            · subst hrc
              rw [show (base ++ [c]).dropLast = base by simp]
              rcases hbase with hb | hb
              · exact Or.inl hb
              · refine Or.inr ?_
                rw [lookupN_setN_ne _ _ _ _ (Ne.symm (ne_append_of_ne_nil base [c] (by simp)))]
                exact hb
            · have hlr : lookupN (setN s (base ++ [c]) .dir) r = lookupN s r :=
                lookupN_setN_ne _ _ _ _ (fun he => hrc he.symm)
              have hex0 : pathExistsN s r = true := by
                rw [pathExistsN, ← hlr]
                exact hex
              rcases hwf r hex0 hne with hroot | hdir
              · exact Or.inl hroot
              · refine Or.inr ?_
                have hdp : base ++ [c] ≠ r.dropLast := by
                  intro he
                  rw [← he] at hdir
                  rw [hl] at hdir
                  cases hdir
                rw [lookupN_setN_ne _ _ _ _ hdp]
                exact hdir
        exact ih s1 (base ++ [c]) s' l2 hwf1 (Or.inr had_dir) heq2

theorem wf_removeDirAllT (s : FsState) (p : FilePathM) (s' : FsState)
    (hwf : WFState s) (h : removeDirAllT s p = some s') : WFState s' := by
  obtain ⟨hdir, rfl⟩ := removeDirAllT_some s p s' h
  intro r hex hne
  have hout : isPrefixB p r = false := by
    cases hpr : isPrefixB p r with
    | false => rfl
    | true =>
      rw [pathExistsN, lookupN_removeSub_in s p r hpr] at hex
      simp at hex
  have hlr := lookupN_removeSub_out s p r hout
  have hex0 : pathExistsN s r = true := by
    rw [pathExistsN, ← hlr]
    exact hex
  rcases hwf r hex0 hne with hroot | hd
  · exact Or.inl hroot
  · refine Or.inr ?_
    have houtp : isPrefixB p r.dropLast = false := by
      cases hpr : isPrefixB p r.dropLast with
      | false => rfl
      | true =>
        have hdr : isPrefixB r.dropLast r = true := by
          rw [isPrefixB_iff]
          exact ⟨[r.getLast hne], List.dropLast_append_getLast hne⟩
        rw [isPrefixB_trans p r.dropLast r hpr hdr] at hout
        cases hout
    rw [lookupN_removeSub_out s p r.dropLast houtp]
    exact hd

theorem wf_no_orphans (s : FsState) (hwf : WFState s) (q : FilePathM) (hq : q ≠ [])
    (hnone : lookupN s q = none) :
    ∀ r, isPrefixB q r = true → lookupN s r = none := by
  intro r
  induction r using List.reverseRecOn with
  | nil =>
    intro hpre
    cases q with
    | nil => exact absurd rfl hq
    | cons a as => simp [isPrefixB] at hpre
  | append_singleton r0 a ih =>
    intro hpre
    by_cases hqr : q = r0 ++ [a]
    · rw [← hqr]; exact hnone
    · have hpre' : isPrefixB q r0 = true := by
        have := isPrefixB_proper_dropLast q (r0 ++ [a]) hpre hqr
        simpa using this
      have hr0 : lookupN s r0 = none := ih hpre'
      cases hl : lookupN s (r0 ++ [a]) with
      | none => rfl
      | some n =>
        have hex : pathExistsN s (r0 ++ [a]) = true := by simp [pathExistsN, hl]
        rcases hwf _ hex (by simp) with hroot | hdir
        · have hr00 : r0 = [] := by simpa using hroot
          subst hr00
          cases q with
          | nil => exact absurd rfl hq
          | cons b bs => simp [isPrefixB] at hpre'
        · rw [show (r0 ++ [a]).dropLast = r0 by simp] at hdir
          rw [hr0] at hdir
          cases hdir

/-- Instrumented model of `create_files` (src/lib.rs, lines 203-220): for each
entry, skip silently when the path exists; otherwise, for a path with an
extension create all missing parent directories and write the content, and
for a path without an extension create the path itself as a directory.  The
returned list logs every directory created and file written; the source
performs those operations directly and the log is pure instrumentation. -/
def createFilesT : FilesM → FsState → Option (FsState × List FilePathM)
  | [], s => some (s, [])
  | (p, c) :: rest, s =>
    if pathExistsN s p then createFilesT rest s
    else if hasExt p then
      match createDirAllT s p.dropLast with
      | none => none
      | some pr =>
        match writeT pr.1 p (.text c) with
        | none => none
        | some s2 =>
          match createFilesT rest s2 with
          | none => none
          | some pr2 => some (pr2.1, pr.2 ++ [p] ++ pr2.2)
    else
      match createDirAllT s p with
      | none => none
      | some pr =>
        match createFilesT rest pr.1 with
        | none => none
        | some pr2 => some (pr2.1, pr.2 ++ pr2.2)

/-- `create_files` from src/lib.rs: the resulting filesystem state. -/
def create_files (files : FilesM) (s : FsState) : Option FsState :=
  (createFilesT files s).map (·.1)

/-- Model of `override_or_create_files` (src/lib.rs, lines 229-246): when the
path exists, open with `write(true).truncate(true)` — which fails on a
directory — and replace the content; otherwise create parent directories
and write. -/
def override_or_create_files : FilesM → FsState → Option FsState
  | [], s => some s
  | (p, c) :: rest, s =>
    match lookupN s p with
    | some (.file _) => override_or_create_files rest (setN s p (.file (.text c)))
    | some .dir => none
    | none =>
      match createDirAllT s p.dropLast with
      | none => none
      | some pr =>
        match writeT pr.1 p (.text c) with
        | none => none
        | some s2 => override_or_create_files rest s2

theorem createFilesT_preserve (fs : FilesM) :
    ∀ (s s' : FsState) (l : List FilePathM), createFilesT fs s = some (s', l) →
      ∀ r n, lookupN s r = some n → lookupN s' r = some n := by
  induction fs with
  | nil =>
    intro s s' l h r n hr
    unfold createFilesT at h
    injection h with h'
    cases h'
    exact hr
  | cons e rest ih =>
    obtain ⟨p, c⟩ := e
    intro s s' l h r n hr
    unfold createFilesT at h
    split at h
    · exact ih s s' l h r n hr
    · rename_i hex
      split at h
      · -- extension branch
        split at h
        · simp at h
        · rename_i pr heq1
          split at h
          · simp at h
          · rename_i s2 heq2
            split at h
            · simp at h
            · rename_i pr2 heq3
              injection h with h'
              cases h'
              have h1 : lookupN pr.1 r = some n :=
                mkdirFrom_preserve p.dropLast s [] pr.1 pr.2 heq1 r n hr
              have hrp : p ≠ r := by
                intro he
                subst he
                rw [pathExistsN, hr] at hex
                simp at hex
              obtain ⟨rfl, _, _⟩ := writeT_some pr.1 p (.text c) s2 heq2
              have h2 : lookupN (setN pr.1 p (.file (.text c))) r = some n := by
                rw [lookupN_setN_ne _ _ _ _ hrp]
                exact h1
              exact ih _ _ _ heq3 r n h2
      · -- directory branch
        split at h
        · simp at h
        · rename_i pr heq1
          split at h
          · simp at h
          · rename_i pr2 heq2
            injection h with h'
            cases h'
            have h1 : lookupN pr.1 r = some n :=
              mkdirFrom_preserve p s [] pr.1 pr.2 heq1 r n hr
            exact ih _ _ _ heq2 r n h1

theorem createFilesT_post (fs : FilesM) :
    ∀ (s s' : FsState) (l : List FilePathM), createFilesT fs s = some (s', l) →
      ∀ p c, (p, c) ∈ fs → pathExistsN s' p = true ∨ p = [] := by
  induction fs with
  | nil =>
    intro s s' l h p c hmem
    cases hmem
  | cons e rest ih =>
    obtain ⟨q, d⟩ := e
    intro s s' l h p c hmem
    unfold createFilesT at h
    split at h
    · rename_i hex
      rcases List.mem_cons.mp hmem with he | hrest
      · injection he with he1 he2
        subst he1
        left
        rw [pathExistsN] at hex ⊢
        cases ho : lookupN s p with
        | none => rw [ho] at hex; simp at hex
        | some n =>
          rw [createFilesT_preserve rest s s' l h p n ho]
          rfl
      · exact ih s s' l h p c hrest
    · rename_i hex
      split at h
      · rename_i hext
        split at h
        · simp at h
        · rename_i pr heq1
          split at h
          · simp at h
          · rename_i s2 heq2
            split at h
            · simp at h
            · rename_i pr2 heq3
              injection h with h'
              cases h'
              rcases List.mem_cons.mp hmem with he | hrest
              · injection he with he1 he2
                subst he1
                left
                obtain ⟨rfl, _, _⟩ := writeT_some pr.1 p (.text d) s2 heq2
                have : lookupN (setN pr.1 p (.file (.text d))) p = some (.file (.text d)) :=
                  lookupN_setN_self _ _ _
                rw [pathExistsN, createFilesT_preserve rest _ _ _ heq3 p _ this]
                rfl
              · exact ih _ _ _ heq3 p c hrest
      · rename_i hext
        split at h
        · simp at h
        · rename_i pr heq1
          split at h
          · simp at h
          · rename_i pr2 heq2
            injection h with h'
            cases h'
            rcases List.mem_cons.mp hmem with he | hrest
            · injection he with he1 he2
              subst he1
              by_cases hp0 : p = []
              · exact Or.inr hp0
              · left
                have hdir : lookupN pr.1 p = some .dir := by
                  have := mkdirFrom_post p s [] pr.1 pr.2 heq1 p hp0 (isPrefixB_refl p)
                  simpa using this
                rw [pathExistsN, createFilesT_preserve rest _ _ _ heq2 p _ hdir]
                rfl
            · exact ih _ _ _ heq2 p c hrest

theorem createFilesT_skip_all (fs : FilesM) :
    ∀ (s : FsState), (∀ p c, (p, c) ∈ fs → pathExistsN s p = true ∨ p = []) →
      createFilesT fs s = some (s, []) := by
  induction fs with
  | nil => intro s _; rfl
  | cons e rest ih =>
    obtain ⟨p, c⟩ := e
    intro s h
    rcases h p c (List.mem_cons_self _ _) with hex | hp0
    · unfold createFilesT
      rw [if_pos hex]
      exact ih s (fun q d hq => h q d (List.mem_cons_of_mem _ hq))
    · subst hp0
      unfold createFilesT
      cases hex : pathExistsN s ([] : FilePathM) with
      | true =>
        exact ih s (fun q d hq => h q d (List.mem_cons_of_mem _ hq))
      | false =>
        have hext : hasExt ([] : FilePathM) = false := rfl
        have hmk : createDirAllT s ([] : FilePathM) = some (s, []) := rfl
        simp only [hext, hmk, Bool.false_eq_true, if_false]
        rw [ih s (fun q d hq => h q d (List.mem_cons_of_mem _ hq))]
        simp

theorem createFilesT_decompose (xs : FilesM) :
    ∀ (ys : FilesM) (s s' : FsState) (l : List FilePathM),
      createFilesT (xs ++ ys) s = some (s', l) →
      ∃ s1 l1 l2, createFilesT xs s = some (s1, l1) ∧ createFilesT ys s1 = some (s', l2) := by
  induction xs with
  | nil =>
    intro ys s s' l h
    exact ⟨s, [], l, rfl, h⟩
  | cons e rest ih =>
    obtain ⟨p, c⟩ := e
    intro ys s s' l h
    rw [List.cons_append] at h
    unfold createFilesT at h
    by_cases hex : pathExistsN s p = true
    · rw [if_pos hex] at h
      obtain ⟨s1, l1, l2, hxs, hys⟩ := ih ys s s' l h
      refine ⟨s1, l1, l2, ?_, hys⟩
      unfold createFilesT
      rw [if_pos hex]
      exact hxs
    · rw [if_neg hex] at h
      by_cases hext : hasExt p = true
      · rw [if_pos hext] at h
        split at h
        · simp at h
        · rename_i pr heq1
          split at h
          · simp at h
          · rename_i s2 heq2
            split at h
            · simp at h
            · rename_i pr2 heq3
              injection h with h'
              injection h' with ha hb
              subst ha
              obtain ⟨s1, l1, l2, hxs, hys⟩ := ih ys s2 pr2.1 pr2.2 (by rw [heq3])
              refine ⟨s1, pr.2 ++ [p] ++ l1, l2, ?_, hys⟩
              unfold createFilesT
              rw [if_neg hex, if_pos hext]
              simp only [heq1, heq2, hxs]
      · rw [if_neg hext] at h
        split at h
        · simp at h
        · rename_i pr heq1
          split at h
          · simp at h
          · rename_i pr2 heq2
            injection h with h'
            injection h' with ha hb
            subst ha
            obtain ⟨s1, l1, l2, hxs, hys⟩ := ih ys pr.1 pr2.1 pr2.2 (by rw [heq2])
            refine ⟨s1, pr.2 ++ l1, l2, ?_, hys⟩
            unfold createFilesT
            rw [if_neg hex, if_neg hext]
            simp only [heq1, hxs]

theorem createFilesT_content_irrelevant (pre : FilesM) :
    ∀ (p : FilePathM) (c c' : String) (post : FilesM) (s : FsState), hasExt p = false →
      createFilesT (pre ++ (p, c) :: post) s = createFilesT (pre ++ (p, c') :: post) s := by
  induction pre with
  | nil =>
    intro p c c' post s hext
    simp [createFilesT, hext]
  | cons e rest ih =>
    obtain ⟨q, d⟩ := e
    intro p c c' post s hext
    have ihfun : ∀ s2, createFilesT (rest ++ (p, c) :: post) s2 =
        createFilesT (rest ++ (p, c') :: post) s2 := fun s2 => ih p c c' post s2 hext
    simp only [List.cons_append, createFilesT, List.append_eq, ihfun]

theorem createFilesT_head_ext (p : FilePathM) (c : String) (post : FilesM) (s s' : FsState)
    (l : List FilePathM) (hex : pathExistsN s p = false) (hext : hasExt p = true)
    (h : createFilesT ((p, c) :: post) s = some (s', l)) :
    lookupN s' p = some (.file (.text c)) ∧
      ∀ q, q ≠ [] → q ≠ p → isPrefixB q p = true → lookupN s' q = some .dir := by
  unfold createFilesT at h
  rw [if_neg (by simp [hex]), if_pos hext] at h
  split at h
  · simp at h
  · rename_i pr heq1
    split at h
    · simp at h
    · rename_i s2 heq2
      split at h
      · simp at h
      · rename_i pr2 heq3
        injection h with h'
        injection h' with ha hb
        subst ha
        obtain ⟨rfl, _, _⟩ := writeT_some pr.1 p (.text c) s2 heq2
        constructor
        · exact createFilesT_preserve post _ _ _ heq3 p _ (lookupN_setN_self _ _ _)
        · intro q hq0 hqp hqpre
          have hqd : isPrefixB q p.dropLast = true :=
            isPrefixB_proper_dropLast q p hqpre hqp
          have hdir : lookupN pr.1 q = some .dir := by
            have := mkdirFrom_post p.dropLast s [] pr.1 pr.2 heq1 q hq0 hqd
            simpa using this
          have hqp' : lookupN (setN pr.1 p (.file (.text c))) q = some .dir := by
            rw [lookupN_setN_ne _ _ _ _ (fun he => hqp he.symm)]
            exact hdir
          exact createFilesT_preserve post _ _ _ heq3 q _ hqp'

theorem createFilesT_head_noext (p : FilePathM) (c : String) (post : FilesM) (s s' : FsState)
    (l : List FilePathM) (hex : pathExistsN s p = false) (hext : hasExt p = false)
    (hp0 : p ≠ []) (h : createFilesT ((p, c) :: post) s = some (s', l)) :
    lookupN s' p = some .dir := by
  unfold createFilesT at h
  rw [if_neg (by simp [hex]), if_neg (by simp [hext])] at h
  split at h
  · simp at h
  · rename_i pr heq1
    split at h
    · simp at h
    · rename_i pr2 heq2
      injection h with h'
      injection h' with ha hb
      subst ha
      have hdir : lookupN pr.1 p = some .dir := by
        have := mkdirFrom_post p s [] pr.1 pr.2 heq1 p hp0 (isPrefixB_refl p)
        simpa using this
      exact createFilesT_preserve post _ _ _ heq2 p _ hdir

/-- Claim C2: for every entry list and initial state, a successful
`create_files` run (a) leaves every already-existing entry path bound to its
original node, (b) for an entry whose path does not exist when it is
processed and has an extension, writes the content and makes every proper
non-root prefix of the path a directory, and (c) treats a no-extension
entry as a directory-creation request, with its content irrelevant to the
whole run. -/
theorem create_files_spec (pre : FilesM) (p : FilePathM) (c : String) (post : FilesM)
    (s s' : FsState) (l : List FilePathM)
    (h : createFilesT (pre ++ (p, c) :: post) s = some (s', l)) :
    (pathExistsN s p = true → lookupN s' p = lookupN s p) ∧
    (∀ mid lm, createFilesT pre s = some (mid, lm) → pathExistsN mid p = false →
      (hasExt p = true → lookupN s' p = some (.file (.text c)) ∧
        ∀ q, q ≠ [] → q ≠ p → isPrefixB q p = true → lookupN s' q = some .dir) ∧
      (hasExt p = false → p ≠ [] → lookupN s' p = some .dir)) ∧
    (∀ c', hasExt p = false → createFilesT (pre ++ (p, c') :: post) s = some (s', l)) := by
  refine ⟨?_, ?_, ?_⟩
  · intro hex
    rw [pathExistsN] at hex
    cases ho : lookupN s p with
    | none => rw [ho] at hex; simp at hex
    | some n => exact createFilesT_preserve _ _ _ _ h p n ho
  · intro mid lm hmid hexmid
    obtain ⟨s1, l1, l2, hpre, hys⟩ := createFilesT_decompose pre _ _ _ _ h
    rw [hmid] at hpre
    injection hpre with hpre'
    injection hpre' with ha hb
    subst ha
    constructor
    · intro hext
      exact createFilesT_head_ext p c post mid s' l2 hexmid hext hys
    · intro hext hp0
      exact createFilesT_head_noext p c post mid s' l2 hexmid hext hp0 hys
  · intro c' hext
    rw [← createFilesT_content_irrelevant pre p c c' post s hext]
    exact h

/-- Witness for C2 at a concrete input: from an initial state holding only
the directory `programs`, creating `programs/demo/src/lib.rs` writes the
file and creates the missing intermediate directories. -/
theorem create_files_spec_witness :
    lookupN [(["programs", "demo", "src", "lib.rs"], Node.file (.text "x")),
             (["programs", "demo", "src"], Node.dir),
             (["programs", "demo"], Node.dir),
             (["programs"], Node.dir)] ["programs", "demo", "src", "lib.rs"]
      = some (.file (.text "x")) ∧
    lookupN [(["programs", "demo", "src", "lib.rs"], Node.file (.text "x")),
             (["programs", "demo", "src"], Node.dir),
             (["programs", "demo"], Node.dir),
             (["programs"], Node.dir)] ["programs", "demo"] = some .dir := by
  have hmain := create_files_spec [] ["programs", "demo", "src", "lib.rs"] "x" []
    [(["programs"], Node.dir)]
    [(["programs", "demo", "src", "lib.rs"], Node.file (.text "x")),
     (["programs", "demo", "src"], Node.dir),
     (["programs", "demo"], Node.dir),
     (["programs"], Node.dir)]
    [["programs", "demo"], ["programs", "demo", "src"], ["programs", "demo", "src", "lib.rs"]]
    (by decide)
  have hb := (hmain.2.1 [(["programs"], Node.dir)] [] (by decide) (by decide)).1 (by decide)
  exact ⟨hb.1, hb.2 ["programs", "demo"] (by decide) (by decide) (by decide)⟩

/-- Claim C3: `create_files` is idempotent — after a successful run, running
it again with the same entries leaves the state unchanged and performs no
directory creation or file write (empty operation log). -/
theorem create_files_idempotent (fs : FilesM) (s s1 : FsState) (l : List FilePathM)
    (h : createFilesT fs s = some (s1, l)) :
    createFilesT fs s1 = some (s1, []) ∧ create_files fs s1 = some s1 := by
  have hskip := createFilesT_skip_all fs s1 (fun p c hm => createFilesT_post fs s s1 l h p c hm)
  exact ⟨hskip, by rw [create_files, hskip]; rfl⟩

/-- Witness for C3 at a concrete input. -/
theorem create_files_idempotent_witness :
    createFilesT [(["src", "lib.rs"], "x"), (["app"], "")]
        [(["app"], Node.dir), (["src", "lib.rs"], Node.file (.text "x")), (["src"], Node.dir)] =
      some ([(["app"], Node.dir), (["src", "lib.rs"], Node.file (.text "x")),
             (["src"], Node.dir)], []) ∧
    create_files [(["src", "lib.rs"], "x"), (["app"], "")]
        [(["app"], Node.dir), (["src", "lib.rs"], Node.file (.text "x")), (["src"], Node.dir)] =
      some [(["app"], Node.dir), (["src", "lib.rs"], Node.file (.text "x")), (["src"], Node.dir)] :=
  create_files_idempotent [(["src", "lib.rs"], "x"), (["app"], "")] []
    [(["app"], Node.dir), (["src", "lib.rs"], Node.file (.text "x")), (["src"], Node.dir)]
    [["src"], ["src", "lib.rs"], ["app"]] (by decide)

theorem override_preserve_file (fs : FilesM) :
    ∀ (s s' : FsState), override_or_create_files fs s = some s' →
      ∀ r d, lookupN s r = some (.file d) → r ∉ fs.map Prod.fst →
        lookupN s' r = some (.file d) := by
  induction fs with
  | nil =>
    intro s s' h r d hr _
    unfold override_or_create_files at h
    injection h with h'
    subst h'
    exact hr
  | cons e rest ih =>
    obtain ⟨q, c⟩ := e
    intro s s' h r d hr hmem
    have hrq : r ≠ q := by
      intro he
      exact hmem (by simp [he])
    have hmem' : r ∉ rest.map Prod.fst := fun hm => hmem (by simp [hm])
    unfold override_or_create_files at h
    split at h
    · -- overwrite an existing file
      have h2 : lookupN (setN s q (.file (.text c))) r = some (.file d) := by
        rw [lookupN_setN_ne _ _ _ _ (fun he => hrq he.symm)]
        exact hr
      exact ih _ _ h r d h2 hmem'
    · simp at h
    · rename_i hq
      split at h
      · simp at h
      · rename_i pr heq1
        split at h
        · simp at h
        · rename_i s2 heq2
          have h1 : lookupN pr.1 r = some (.file d) :=
            mkdirFrom_preserve q.dropLast s [] pr.1 pr.2 heq1 r _ hr
          obtain ⟨rfl, _, _⟩ := writeT_some pr.1 q (.text c) s2 heq2
          have h2 : lookupN (setN pr.1 q (.file (.text c))) r = some (.file d) := by
            rw [lookupN_setN_ne _ _ _ _ (fun he => hrq he.symm)]
            exact h1
          exact ih _ _ h r d h2 hmem'

theorem override_preserve_dir (fs : FilesM) :
    ∀ (s s' : FsState), override_or_create_files fs s = some s' →
      ∀ r, lookupN s r = some .dir → lookupN s' r = some .dir := by
  induction fs with
  | nil =>
    intro s s' h r hr
    unfold override_or_create_files at h
    injection h with h'
    subst h'
    exact hr
  | cons e rest ih =>
    obtain ⟨q, c⟩ := e
    intro s s' h r hr
    unfold override_or_create_files at h
    split at h
    · rename_i d hq
      have hrq : q ≠ r := by
        intro he
        rw [he, hr] at hq
        cases hq
      have h2 : lookupN (setN s q (.file (.text c))) r = some .dir := by
        rw [lookupN_setN_ne _ _ _ _ hrq]
        exact hr
      exact ih _ _ h r h2
    · simp at h
    · rename_i hq
      split at h
      · simp at h
      · rename_i pr heq1
        split at h
        · simp at h
        · rename_i s2 heq2
          have h1 : lookupN pr.1 r = some .dir :=
            mkdirFrom_preserve q.dropLast s [] pr.1 pr.2 heq1 r _ hr
          have hrq : q ≠ r := by
            intro he
            rw [he, hr] at hq
            cases hq
          obtain ⟨rfl, _, _⟩ := writeT_some pr.1 q (.text c) s2 heq2
          have h2 : lookupN (setN pr.1 q (.file (.text c))) r = some .dir := by
            rw [lookupN_setN_ne _ _ _ _ hrq]
            exact h1
          exact ih _ _ h r h2

theorem override_decompose (xs : FilesM) :
    ∀ (ys : FilesM) (s s' : FsState),
      override_or_create_files (xs ++ ys) s = some s' →
      ∃ s1, override_or_create_files xs s = some s1 ∧
        override_or_create_files ys s1 = some s' := by
  induction xs with
  | nil =>
    intro ys s s' h
    exact ⟨s, rfl, h⟩
  | cons e rest ih =>
    obtain ⟨q, c⟩ := e
    intro ys s s' h
    rw [List.cons_append] at h
    unfold override_or_create_files at h
    split at h
    · rename_i d hq
      obtain ⟨s1, hxs, hys⟩ := ih ys _ s' h
      refine ⟨s1, ?_, hys⟩
      unfold override_or_create_files
      rw [hq]
      exact hxs
    · simp at h
    · rename_i hq
      split at h
      · simp at h
      · rename_i pr heq1
        split at h
        · simp at h
        · rename_i s2 heq2
          obtain ⟨s1, hxs, hys⟩ := ih ys s2 s' h
          refine ⟨s1, ?_, hys⟩
          unfold override_or_create_files
          rw [hq]
          simp only [heq1, heq2]
          exact hxs

theorem override_head (p : FilePathM) (c : String) (post : FilesM) (s s' : FsState)
    (h : override_or_create_files ((p, c) :: post) s = some s')
    (hpost : p ∉ post.map Prod.fst) :
    lookupN s' p = some (.file (.text c)) ∧
      (lookupN s p = none →
        ∀ q, q ≠ [] → q ≠ p → isPrefixB q p = true → lookupN s' q = some .dir) := by
  unfold override_or_create_files at h
  split at h
  · rename_i d hq
    constructor
    · exact override_preserve_file post _ _ h p (.text c) (lookupN_setN_self _ _ _) hpost
    · intro hnone
      rw [hnone] at hq
      cases hq
  · simp at h
  · rename_i hq
    split at h
    · simp at h
    · rename_i pr heq1
      split at h
      · simp at h
      · rename_i s2 heq2
        obtain ⟨rfl, _, _⟩ := writeT_some pr.1 p (.text c) s2 heq2
        constructor
        · exact override_preserve_file post _ _ h p (.text c) (lookupN_setN_self _ _ _) hpost
        · intro _ q hq0 hqp hqpre
          have hqd : isPrefixB q p.dropLast = true :=
            isPrefixB_proper_dropLast q p hqpre hqp
          have hdir : lookupN pr.1 q = some .dir := by
            have := mkdirFrom_post p.dropLast s [] pr.1 pr.2 heq1 q hq0 hqd
            simpa using this
          have h2 : lookupN (setN pr.1 p (.file (.text c))) q = some .dir := by
            rw [lookupN_setN_ne _ _ _ _ (fun he => hqp he.symm)]
            exact hdir
          exact override_preserve_dir post _ _ h q h2

/-- Claim C4: after a successful `override_or_create_files` run, an entry
whose path is not repeated later in the list ends up holding exactly the
entry's new content — both when the path already existed (truncate and
overwrite, no residual bytes) and when it did not (parent directories are
created and the file is written). -/
theorem override_or_create_files_spec (pre : FilesM) (p : FilePathM) (c : String)
    (post : FilesM) (s s' : FsState)
    (h : override_or_create_files (pre ++ (p, c) :: post) s = some s')
    (hpost : p ∉ post.map Prod.fst) :
    lookupN s' p = some (.file (.text c)) ∧
      (∀ mid, override_or_create_files pre s = some mid → lookupN mid p = none →
        ∀ q, q ≠ [] → q ≠ p → isPrefixB q p = true → lookupN s' q = some .dir) := by
  obtain ⟨s1, hpre, hys⟩ := override_decompose pre _ _ _ h
  obtain ⟨hfile, hdirs⟩ := override_head p c post s1 s' hys hpost
  refine ⟨hfile, ?_⟩
  intro mid hmid hnone
  rw [hpre] at hmid
  injection hmid with hmid'
  subst hmid'
  exact hdirs hnone

/-- Witness for C4 at a concrete input: overwriting an existing file with a
shorter content leaves exactly the new content, and a fresh path gets its
parent directory created. -/
theorem override_or_create_files_spec_witness :
    lookupN (setN [(["f.txt"], Node.file (.text "old longer content"))] ["f.txt"]
        (Node.file (.text "new"))) ["f.txt"] = some (.file (.text "new")) ∧
    (∀ mid, override_or_create_files [] [(["f.txt"], Node.file (.text "old longer content"))]
        = some mid → lookupN mid ["f.txt"] = none →
      ∀ q, q ≠ [] → q ≠ ["f.txt"] → isPrefixB q ["f.txt"] = true →
        lookupN (setN [(["f.txt"], Node.file (.text "old longer content"))] ["f.txt"]
          (Node.file (.text "new"))) q = some .dir) :=
  override_or_create_files_spec [] ["f.txt"] "new" []
    [(["f.txt"], Node.file (.text "old longer content"))]
    (setN [(["f.txt"], Node.file (.text "old longer content"))] ["f.txt"]
      (Node.file (.text "new")))
    (by decide) (by decide)

/-!  ASCII model of the `heck` case conversions the source uses
(`ToSnakeCase`, `ToKebabCase`, `ToPascalCase`): split on non-alphanumeric
characters, split camel-case words at a lowercase-to-uppercase boundary and
before the final uppercase of an acronym run, then lowercase (snake/kebab)
or capitalize (pascal) each word and join. -/

def isWordChar (c : Char) : Bool := c.isAlphanum

def splitWordsAux : List Char → List Char → List (List Char)
  | [], cur => if cur.isEmpty then [] else [cur.reverse]
  | c :: rest, cur =>
    if isWordChar c then splitWordsAux rest (c :: cur)
    else if cur.isEmpty then splitWordsAux rest []
    else cur.reverse :: splitWordsAux rest []

/-- Split on non-alphanumeric characters, dropping empty segments. -/
def splitWords (l : List Char) : List (List Char) := splitWordsAux l []

/-- Scanner mode of heck's `transform` word-boundary machine. -/
inductive WMode where
  | boundary | lower | upper
deriving DecidableEq

/-- Heck's camel boundary scanner; `cur` holds the current word reversed. -/
def camelAux : WMode → List Char → List Char → List (List Char)
  | _, cur, [] => if cur.isEmpty then [] else [cur.reverse]
  | mode, cur, c :: rest =>
    match rest with
    | [] => [(c :: cur).reverse]
    | next :: _ =>
      let nextMode : WMode := if c.isLower then .lower else if c.isUpper then .upper else mode
      if nextMode = .lower ∧ next.isUpper then
        ((c :: cur).reverse) :: camelAux .boundary [] rest
      else if mode = .upper ∧ c.isUpper ∧ next.isLower then
        cur.reverse :: camelAux .boundary [c] rest
      else
        camelAux nextMode (c :: cur) rest

def camelSplit (w : List Char) : List (List Char) := camelAux .boundary [] w

def heckWords (l : List Char) : List (List Char) := ((splitWords l).map camelSplit).flatten

def toLowerWord (w : List Char) : List Char := w.map Char.toLower

def capitalizeWord : List Char → List Char
  | [] => []
  | c :: rest => c.toUpper :: rest.map Char.toLower

/-- `heck::ToSnakeCase` (ASCII model). -/
def toSnakeCase (s : String) : String :=
  String.mk (List.intercalate ['_'] ((heckWords s.data).map toLowerWord))

/-- `heck::ToKebabCase` (ASCII model). -/
def toKebabCase (s : String) : String :=
  String.mk (List.intercalate ['-'] ((heckWords s.data).map toLowerWord))

/-- `heck::ToPascalCase` (ASCII model; used by the mocha test templates). -/
def toPascalCase (s : String) : String :=
  String.mk (((heckWords s.data).map capitalizeWord).flatten)

/-- The keywords `syn::parse_str::<syn::Ident>` rejects (syn's
`accept_as_ident`); notably `async`, `await` and `try` are NOT in it, which
is why src/lib.rs lines 97-99 keeps an extra blocklist. -/
def synRejects : List String := ["_", "abstract", "as", "become", "box", "break", "const",
  "continue", "crate", "do", "dyn", "else", "enum", "extern", "false", "final", "fn", "for",
  "if", "impl", "in", "let", "loop", "macro", "match", "mod", "move", "mut", "override",
  "priv", "pub", "ref", "return", "Self", "self", "static", "struct", "super", "trait",
  "true", "type", "typeof", "unsafe", "unsized", "use", "virtual", "where", "while", "yield"]

def isIdentStart (c : Char) : Bool := c.isAlpha || c = '_'

def isIdentCont (c : Char) : Bool := c.isAlphanum || c = '_'

/-- Identifier validity as `syn::parse_str::<syn::Ident>` decides it (ASCII
model): nonempty, starting with a letter or underscore (so not a digit),
containing only identifier characters, and not a rejected keyword. -/
def synIdentOk (s : String) : Bool :=
  match s.data with
  | [] => false
  | c :: rest => isIdentStart c && rest.all isIdentCont && !(synRejects.contains s)

/-- The extra keyword blocklist of src/lib.rs line 99. -/
def extra_keywords : List String := ["async", "await", "try"]

/-- The error kinds the spec's error taxonomy names for `init`. -/
inductive InitError where
  | invalidIdentifier
  | workspaceExists
  | ioFailure
deriving DecidableEq

/-- The name validation of `init` (src/lib.rs lines 100-107): the snake-cased
name must parse as a `syn::Ident` and must avoid the extra blocklist; both
failure causes collapse to the single invalid-identifier error. -/
def nameCheck (rustName : String) : Option InitError :=
  if !synIdentOk rustName || extra_keywords.contains rustName then some .invalidIdentifier
  else none

/-- `rust_name` (the spec's `identifier_form`), src/lib.rs line 90. -/
def rustNameOf (name : String) : String := toSnakeCase name

/-- `project_name` (the spec's `directory_form`), src/lib.rs lines 91-95. -/
def projectNameOf (name : String) : String :=
  if name = rustNameOf name then rustNameOf name else toKebabCase name

/-- Claim C5: `identifier_form` is the snake-cased raw name;
`directory_form` equals it when the raw name is already in that canonical
form, and is the kebab-cased raw name otherwise; in particular
`"my-app"` yields `("my_app", "my-app")` and `"my_app"` yields
`("my_app", "my_app")`. -/
theorem name_normalization :
    (∀ raw : String, rustNameOf raw = toSnakeCase raw) ∧
    (∀ raw : String, raw = rustNameOf raw → projectNameOf raw = rustNameOf raw) ∧
    (∀ raw : String, raw ≠ rustNameOf raw → projectNameOf raw = toKebabCase raw) ∧
    rustNameOf "my-app" = "my_app" ∧ projectNameOf "my-app" = "my-app" ∧
    rustNameOf "my_app" = "my_app" ∧ projectNameOf "my_app" = "my_app" := by
  refine ⟨fun raw => rfl, fun raw h => by rw [projectNameOf, if_pos h],
          fun raw h => by rw [projectNameOf, if_neg h], ?_, ?_, ?_, ?_⟩ <;> decide

/-- Witness for C5: the conditional clauses applied at the two scenario
names. -/
theorem name_normalization_witness :
    projectNameOf "my_app" = rustNameOf "my_app" ∧
    projectNameOf "my-app" = toKebabCase "my-app" :=
  ⟨name_normalization.2.1 "my_app" (by decide),
   name_normalization.2.2.1 "my-app" (by decide)⟩

/-- `solana_sdk::signature::read_keypair_file`: succeeds only on a file
holding a keypair blob; a missing path, a directory, and unreadable or
corrupt bytes all fail identically. -/
def read_keypair_file (s : FsState) (p : FilePathM) : Option Keypair :=
  match lookupN s p with
  | some (.file (.blob k)) => some k
  | _ => none

/-- `solana_sdk::signature::write_keypair_file`: creates the missing parent
directories, then writes the serialized keypair (create-or-truncate). -/
def write_keypair_file (k : Keypair) (p : FilePathM) (s : FsState) : Option FsState :=
  match createDirAllT s p.dropLast with
  | none => none
  | some pr => writeT pr.1 p (.blob k)

/-- The keypair cache path `target/deploy/<name.to_snake_case()>-keypair.json`
under the working directory `root` (src/rust_template.rs lines 418-420). -/
def keypairPath (root : FilePathM) (name : String) : FilePathM :=
  root ++ ["target", "deploy", toSnakeCase name ++ "-keypair.json"]

/-- `get_or_create_program_id` (src/rust_template.rs lines 417-429), with
the working directory `root` made explicit and the entropy of
`Keypair::new()` passed as `fresh`; returns `none` where the Rust code
would panic (`.expect("Unable to create program keypair")`). -/
def get_or_create_program_id (root : FilePathM) (name : String) (fresh : Keypair)
    (s : FsState) : Option (String × FsState) :=
  match read_keypair_file s (keypairPath root name) with
  | some kp => some (kp.pk, s)
  | none =>
    match write_keypair_file fresh (keypairPath root name) s with
    | none => none
    | some s' => some (fresh.pk, s')

/-- Claim C9: `get_or_create_program_id` returns the public key of the
keypair file at `target/deploy/<identifier_form>-keypair.json` when that
file is readable, leaving the state untouched; on any read failure
(missing or corrupt alike) it persists the fresh keypair at that exact
path and returns its public key; and a second call on the resulting state
returns the same program id without modifying anything. -/
theorem get_or_create_program_id_spec (root : FilePathM) (name : String)
    (fresh : Keypair) (s : FsState) (pk : String) (s' : FsState)
    (h : get_or_create_program_id root name fresh s = some (pk, s')) :
    (∀ k, read_keypair_file s (keypairPath root name) = some k → pk = k.pk ∧ s' = s) ∧
    (read_keypair_file s (keypairPath root name) = none →
      pk = fresh.pk ∧ lookupN s' (keypairPath root name) = some (.file (.blob fresh))) ∧
    (∀ fresh2, get_or_create_program_id root name fresh2 s' = some (pk, s')) := by
  unfold get_or_create_program_id at h
  split at h
  · rename_i kp hread
    injection h with h'
    injection h' with ha hb
    subst ha
    subst hb
    refine ⟨?_, ?_, ?_⟩
    · intro k hk
      rw [hread] at hk
      injection hk with hk'
      exact ⟨by rw [hk'], rfl⟩
    · intro hnone
      rw [hread] at hnone
      cases hnone
    · intro fresh2
      unfold get_or_create_program_id
      rw [hread]
  · rename_i hread
    split at h
    · simp at h
    · rename_i s2 hw
      injection h with h'
      injection h' with ha hb
      subst ha
      subst hb
      unfold write_keypair_file at hw
      split at hw
      · simp at hw
      · rename_i pr heq1
        obtain ⟨rfl, _, _⟩ := writeT_some pr.1 (keypairPath root name) (.blob fresh) s2 hw
        have hblob : lookupN (setN pr.1 (keypairPath root name) (.file (.blob fresh)))
            (keypairPath root name) = some (.file (.blob fresh)) := lookupN_setN_self _ _ _
        refine ⟨?_, fun _ => ⟨rfl, hblob⟩, ?_⟩
        · intro k hk
          rw [hread] at hk
          cases hk
        · intro fresh2
          unfold get_or_create_program_id read_keypair_file
          rw [hblob]

/-- Witness for C9 at a concrete input: a corrupt (unparseable) keypair file
is silently replaced by the fresh keypair, and a second call returns the
same program id without modifying the state. -/
theorem get_or_create_program_id_spec_witness :
    lookupN (setN [(["target", "deploy"], Node.dir), (["target"], Node.dir),
        (["target", "deploy", "counter-keypair.json"], Node.file (.text "corrupt"))]
        ["target", "deploy", "counter-keypair.json"] (Node.file (.blob ⟨"PK"⟩)))
      ["target", "deploy", "counter-keypair.json"] = some (.file (.blob ⟨"PK"⟩)) ∧
    get_or_create_program_id [] "counter" ⟨"NEW"⟩
        (setN [(["target", "deploy"], Node.dir), (["target"], Node.dir),
          (["target", "deploy", "counter-keypair.json"], Node.file (.text "corrupt"))]
          ["target", "deploy", "counter-keypair.json"] (Node.file (.blob ⟨"PK"⟩))) =
      some ("PK",
        setN [(["target", "deploy"], Node.dir), (["target"], Node.dir),
          (["target", "deploy", "counter-keypair.json"], Node.file (.text "corrupt"))]
          ["target", "deploy", "counter-keypair.json"] (Node.file (.blob ⟨"PK"⟩))) := by
  have h := get_or_create_program_id_spec [] "counter" ⟨"PK"⟩
    [(["target", "deploy", "counter-keypair.json"], Node.file (.text "corrupt"))] "PK"
    (setN [(["target", "deploy"], Node.dir), (["target"], Node.dir),
      (["target", "deploy", "counter-keypair.json"], Node.file (.text "corrupt"))]
      ["target", "deploy", "counter-keypair.json"] (Node.file (.blob ⟨"PK"⟩)))
    (by decide)
  exact ⟨(h.2.1 (by decide)).2, h.2.2 ⟨"NEW"⟩⟩

/-- `ProgramTemplate` (src/rust_template.rs lines 17-26); `Basic` is the
default. -/
inductive ProgramTemplate where
  | basic | counter | mintToken
deriving DecidableEq

/-- `ANCHOR_VERSION` (src/rust_template.rs line 14). -/
def ANCHOR_VERSION_M : String := "0.30.0"

/-- `workspace_manifest` (src/rust_template.rs lines 293-309). -/
def workspace_manifest : String :=
  "[workspace]\nmembers = [\n    \"programs/*\"\n]\nresolver = \"2\"\n\n[profile.release]\noverflow-checks = true\nlto = \"fat\"\ncodegen-units = 1\n[profile.release.build-override]\nopt-level = 3\nincremental = false\ncodegen-units = 1\n"

/-- `cargo_toml_basic` (src/rust_template.rs lines 321-348). -/
def cargo_toml_basic (name : String) : String :=
  "[package]\nname = \"" ++ name ++
  "\"\nversion = \"0.1.0\"\ndescription = \"Created with Anchor\"\nedition = \"2021\"\n\n[lib]\ncrate-type = [\"cdylib\", \"lib\"]\nname = \"" ++
  toSnakeCase name ++
  "\"\n\n[features]\ndefault = []\ncpi = [\"no-entrypoint\"]\nno-entrypoint = []\nno-idl = []\nno-log-ix-name = []\nidl-build = [\"anchor-lang/idl-build\"]\n\n[dependencies]\nanchor-lang = \"" ++
  ANCHOR_VERSION_M ++ "\"\n"

/-- `cargo_toml_counter` (src/rust_template.rs lines 350-377): same text as
the basic variant. -/
def cargo_toml_counter (name : String) : String :=
  "[package]\nname = \"" ++ name ++
  "\"\nversion = \"0.1.0\"\ndescription = \"Created with Anchor\"\nedition = \"2021\"\n\n[lib]\ncrate-type = [\"cdylib\", \"lib\"]\nname = \"" ++
  toSnakeCase name ++
  "\"\n\n[features]\ndefault = []\ncpi = [\"no-entrypoint\"]\nno-entrypoint = []\nno-idl = []\nno-log-ix-name = []\nidl-build = [\"anchor-lang/idl-build\"]\n\n[dependencies]\nanchor-lang = \"" ++
  ANCHOR_VERSION_M ++ "\"\n"

/-- `cargo_toml_mint_token` (src/rust_template.rs lines 379-408). -/
def cargo_toml_mint_token (name : String) : String :=
  "[package]\nname = \"" ++ name ++
  "\"\nversion = \"0.1.0\"\ndescription = \"Created with Anchor\"\nedition = \"2021\"\n\n[lib]\ncrate-type = [\"cdylib\", \"lib\"]\nname = \"" ++
  toSnakeCase name ++
  "\"\n\n[features]\ndefault = []\ncpi = [\"no-entrypoint\"]\nno-entrypoint = []\nno-idl = []\nno-log-ix-name = []\nidl-build = [\"anchor-lang/idl-build\", \"anchor-spl/idl-build\"]\n\n[dependencies]\nanchor-lang = \x7b version = \"" ++
  ANCHOR_VERSION_M ++ "\", features = [\"init-if-needed\"] \x7d\nanchor-spl = \x7b version = \"" ++
  ANCHOR_VERSION_M ++ "\", features = [\"metadata\"] \x7d\n"

/-- `cargo_toml` dispatch (src/rust_template.rs lines 311-319). -/
def cargo_toml (name : String) (template : ProgramTemplate) : String :=
  match template with
  | .basic => cargo_toml_basic name
  | .counter => cargo_toml_counter name
  | .mintToken => cargo_toml_mint_token name

/-- `xargo_toml` (src/rust_template.rs lines 410-414). -/
def xargo_toml : String :=
  "[target.bpfel-unknown-unknown.dependencies.std]\nfeatures = []\n"

/-- `create_anchor_toml_basic` (src/rust_template.rs lines 445-467). -/
def create_anchor_toml_basic (program_id test_script : String) : String :=
  "[toolchain]\n\n[features]\nseeds = false\nskip-lint = false\n\n" ++
  "[programs.localnet]\ncounter = \"" ++ program_id ++ "\"" ++
  "\n\n[registry]\nurl = \"https://api.apr.dev\"\n\n[provider]\ncluster = \"Localnet\"\nwallet = \"wallet.json\"\n\n[scripts]\ntest = \"" ++
  test_script ++ "\"\n"

/-- `create_anchor_toml_counter` (src/rust_template.rs lines 469-491): same
text as the basic variant. -/
def create_anchor_toml_counter (program_id test_script : String) : String :=
  "[toolchain]\n\n[features]\nseeds = false\nskip-lint = false\n\n" ++
  "[programs.localnet]\ncounter = \"" ++ program_id ++ "\"" ++
  "\n\n[registry]\nurl = \"https://api.apr.dev\"\n\n[provider]\ncluster = \"Localnet\"\nwallet = \"wallet.json\"\n\n[scripts]\ntest = \"" ++
  test_script ++ "\"\n"

/-- `create_anchor_toml_mint_token` (src/rust_template.rs lines 493-517):
adds a devnet program table and a devnet provider cluster. -/
def create_anchor_toml_mint_token (program_id test_script : String) : String :=
  "[toolchain]\n\n[features]\nseeds = false\nskip-lint = false\n\n" ++
  "[programs.localnet]\ncounter = \"" ++ program_id ++ "\"" ++ "\n" ++
  "[programs.devnet]\ncounter = \"" ++ program_id ++ "\"" ++
  "\n\n[registry]\nurl = \"https://api.apr.dev\"\n\n[provider]\ncluster = \"devnet\"\nwallet = \"wallet.json\"\n\n[scripts]\ntest = \"" ++
  test_script ++ "\"\n"

/-- `create_anchor_toml` dispatch (src/rust_template.rs lines 431-443).
Note: the call site in src/lib.rs line 119 passes only two arguments, so
the files in src do not compile together; the three-argument definition in
src/rust_template.rs is modelled. -/
def create_anchor_toml (program_id test_script : String) (template : ProgramTemplate) : String :=
  match template with
  | .basic => create_anchor_toml_basic program_id test_script
  | .counter => create_anchor_toml_counter program_id test_script
  | .mintToken => create_anchor_toml_mint_token program_id test_script

/-- Claim C10: for every program id, test script and template variant, the
rendered Anchor.toml binds the `[programs.localnet]` table key `counter`
(and, for the mint-token variant, also the `[programs.devnet]` key
`counter`) to the program id; the functions take no workspace or project
name, so the key is independent of it. -/
theorem anchor_toml_program_key_is_counter :
    (∀ (program_id test_script : String) (t : ProgramTemplate), ∃ pre post,
      create_anchor_toml program_id test_script t =
        pre ++ ("[programs.localnet]\ncounter = \"" ++ program_id ++ "\"") ++ post) ∧
    (∀ program_id test_script : String, ∃ pre post,
      create_anchor_toml program_id test_script .mintToken =
        pre ++ ("[programs.devnet]\ncounter = \"" ++ program_id ++ "\"") ++ post) := by
  constructor
  · intro program_id test_script t
    cases t with
    | basic =>
      refine ⟨"[toolchain]\n\n[features]\nseeds = false\nskip-lint = false\n\n",
        "\n\n[registry]\nurl = \"https://api.apr.dev\"\n\n[provider]\ncluster = \"Localnet\"\nwallet = \"wallet.json\"\n\n[scripts]\ntest = \"" ++
          test_script ++ "\"\n", ?_⟩
      simp only [create_anchor_toml, create_anchor_toml_basic, String.append_assoc]
    | counter =>
      refine ⟨"[toolchain]\n\n[features]\nseeds = false\nskip-lint = false\n\n",
        "\n\n[registry]\nurl = \"https://api.apr.dev\"\n\n[provider]\ncluster = \"Localnet\"\nwallet = \"wallet.json\"\n\n[scripts]\ntest = \"" ++
          test_script ++ "\"\n", ?_⟩
      simp only [create_anchor_toml, create_anchor_toml_counter, String.append_assoc]
    | mintToken =>
      refine ⟨"[toolchain]\n\n[features]\nseeds = false\nskip-lint = false\n\n",
        "\n" ++ "[programs.devnet]\ncounter = \"" ++ program_id ++ "\"" ++
          "\n\n[registry]\nurl = \"https://api.apr.dev\"\n\n[provider]\ncluster = \"devnet\"\nwallet = \"wallet.json\"\n\n[scripts]\ntest = \"" ++
          test_script ++ "\"\n", ?_⟩
      simp only [create_anchor_toml, create_anchor_toml_mint_token, String.append_assoc]
  · intro program_id test_script
    refine ⟨"[toolchain]\n\n[features]\nseeds = false\nskip-lint = false\n\n" ++
        "[programs.localnet]\ncounter = \"" ++ program_id ++ "\"" ++ "\n",
      "\n\n[registry]\nurl = \"https://api.apr.dev\"\n\n[provider]\ncluster = \"devnet\"\nwallet = \"wallet.json\"\n\n[scripts]\ntest = \"" ++
        test_script ++ "\"\n", ?_⟩
    simp only [create_anchor_toml, create_anchor_toml_mint_token, String.append_assoc]

/-- The rendered `programs/<name>/src/lib.rs` of the basic template
(src/rust_template.rs lines 50-69), as a function of the program id and the
snake-cased module name that the source interpolates into it. -/
def basic_lib_rs (pid modName : String) : String :=
  "use anchor_lang::prelude::*;

declare_id!(\"" ++ pid ++ "\");

#[program]
pub mod " ++ modName ++ " \x7b
    use super::*;

    pub fn initialize(ctx: Context<Initialize>) -> Result<()> \x7b
        Ok(())
    \x7d
\x7d

#[derive(Accounts)]
pub struct Initialize \x7b\x7d
"

/-- The rendered `lib.rs` of the counter template (src/rust_template.rs
lines 77-141). -/
def counter_lib_rs (pid modName : String) : String :=
  "use anchor_lang::prelude::*;

declare_id!(\"" ++ pid ++ "\");

#[program]
pub mod " ++ modName ++ " \x7b
    use super::*;

    pub fn initialize(ctx: Context<Initialize>) -> Result<()> \x7b
        let counter_account = &mut ctx.accounts.counter;
        counter_account.count = 0;
        Ok(())
    \x7d

    pub fn increment(ctx: Context<Increment>) -> Result<()> \x7b
        let counter_account = &mut ctx.accounts.counter;
        counter_account.count += 1;
        Ok(())
    \x7d
\x7d

#[derive(Accounts)]
pub struct Initialize<\x27info> \x7b
    #[account(
        init,
        seeds = [b\"counter\"],
        bump,
        payer=user,
        space = Counter::space()
    )]
    pub counter: Account<\x27info, Counter>,

    #[account(mut)]
    pub user: Signer<\x27info>,

    pub system_program: Program<\x27info, System>
\x7d

#[derive(Accounts)]
pub struct Increment<\x27info> \x7b
    #[account(mut)]
    pub counter: Account<\x27info, Counter>,

    #[account(mut)]  // Remove leading space
    pub user: Signer<\x27info>,

    pub system_program: Program<\x27info, System>
\x7d

#[account]
pub struct Counter \x7b
    count: u64
\x7d

impl Counter \x7b
    pub fn space() -> usize \x7b
        8 +  // discriminator
        8 // counter
    \x7d
\x7d
"

/-- The rendered `lib.rs` of the mint-token template (src/rust_template.rs
lines 149-289). -/
def mint_token_lib_rs (pid modName : String) : String :=
  "use anchor_lang::prelude::*;
use anchor_spl::\x7b
    associated_token::AssociatedToken,
    metadata::\x7b
        create_metadata_accounts_v3, mpl_token_metadata::types::DataV2, CreateMetadataAccountsV3,
    \x7d,
    token::\x7bmint_to, Mint, MintTo, Token, TokenAccount\x7d,
\x7d;

declare_id!(\"" ++ pid ++ "\");

#[program]
pub mod " ++ modName ++ " \x7b
    use super::*;
    pub fn init_token(ctx: Context<InitToken>, metadata: InitTokenParams) -> Result<()> \x7b
        // Define seeds and signer for creating a token account
        let seeds = &[\"mint\".as_bytes(), &[ctx.bumps.mint]];
        let signer = [&seeds[..]];

        // Define the token data with provided metadata
        let token_data: DataV2 = DataV2 \x7b
            name: metadata.name,
            symbol: metadata.symbol,
            uri: metadata.uri,
            seller_fee_basis_points: 0,
            creators: None,
            collection: None,
            uses: None,
        \x7d;

        // Create context for the Metadata Accounts creation with the signer
        let metadata_ctx = CpiContext::new_with_signer(
            ctx.accounts.token_metadata_program.to_account_info(),
            CreateMetadataAccountsV3 \x7b
                payer: ctx.accounts.payer.to_account_info(),
                update_authority: ctx.accounts.mint.to_account_info(),
                mint: ctx.accounts.mint.to_account_info(),
                metadata: ctx.accounts.metadata.to_account_info(),
                mint_authority: ctx.accounts.mint.to_account_info(),
                system_program: ctx.accounts.system_program.to_account_info(),
                rent: ctx.accounts.rent.to_account_info(),
            \x7d,
            &signer,
        );

        // Call to create metadata accounts with the given token data
        create_metadata_accounts_v3(metadata_ctx, token_data, false, true, None)?;

        msg!(\"Token mint created successfully.\");

        Ok(())
    \x7d

    pub fn mint_tokens(ctx: Context<MintTokens>, quantity: u64) -> Result<()> \x7b
        // Define seeds and signer for minting tokens
        let seeds = &[\"mint\".as_bytes(), &[ctx.bumps.mint]];
        let signer = [&seeds[..]];

        // Mint tokens to the destination account with the given quantity
        mint_to(
            CpiContext::new_with_signer(
                ctx.accounts.token_program.to_account_info(),
                MintTo \x7b
                    authority: ctx.accounts.mint.to_account_info(),
                    to: ctx.accounts.destination.to_account_info(),
                    mint: ctx.accounts.mint.to_account_info(),
                \x7d,
                &signer,
            ),
            quantity,
        )?;

        Ok(())
    \x7d
\x7d

// Struct defining the context for initializing a token
#[derive(Accounts)]
#[instruction(
    params: InitTokenParams
)]
pub struct InitToken<\x27info> \x7b
    /// CHECK: New Metaplex Account being created
    #[account(mut)]
    pub metadata: UncheckedAccount<\x27info>,
    #[account(
        init,
        seeds = [b\"mint\"],
        bump,
        payer = payer,
        mint::decimals = params.decimals,
        mint::authority = mint,
    )]
    pub mint: Account<\x27info, Mint>,
    #[account(mut)]
    pub payer: Signer<\x27info>,
    pub rent: Sysvar<\x27info, Rent>,
    pub system_program: Program<\x27info, System>,
    pub token_program: Program<\x27info, Token>,
    /// CHECK: Metaplex program ID
    pub token_metadata_program: UncheckedAccount<\x27info>,
\x7d

// Struct defining the parameters for initializing a token
#[derive(AnchorSerialize, AnchorDeserialize, Debug, Clone)]
pub struct InitTokenParams \x7b
    pub name: String,
    pub symbol: String,
    pub uri: String,
    pub decimals: u8,
\x7d

// Struct defining the context for minting tokens
#[derive(Accounts)]
pub struct MintTokens<\x27info> \x7b
    #[account(
        mut,
        seeds = [b\"mint\"],
        bump,
        mint::authority = mint,
    )]
    pub mint: Account<\x27info, Mint>,
    #[account(
        init_if_needed, //Initializes the destination account if it does not exist
        payer = payer,
        associated_token::mint = mint,
        associated_token::authority = payer,
    )]
    pub destination: Account<\x27info, TokenAccount>,
    #[account(mut)]
    pub payer: Signer<\x27info>,
    pub rent: Sysvar<\x27info, Rent>,
    pub system_program: Program<\x27info, System>,
    pub token_program: Program<\x27info, Token>,
    pub associated_token_program: Program<\x27info, AssociatedToken>,
\x7d
"

/-- `create_program_template_basic` (src/rust_template.rs lines 47-71):
note that it resolves the program id itself, by calling
`get_or_create_program_id` inside the render, so it reads — and possibly
writes — the keypair cache on disk. -/
def create_program_template_basic (root : FilePathM) (name : String)
    (program_path : FilePathM) (fresh : Keypair) (s : FsState) :
    Option (FilesM × FsState) :=
  match get_or_create_program_id root name fresh s with
  | none => none
  | some pr =>
    some ([(program_path ++ ["src", "lib.rs"], basic_lib_rs pr.1 (toSnakeCase name))], pr.2)

/-- `create_program_template_counter` (src/rust_template.rs lines 74-143). -/
def create_program_template_counter (root : FilePathM) (name : String)
    (program_path : FilePathM) (fresh : Keypair) (s : FsState) :
    Option (FilesM × FsState) :=
  match get_or_create_program_id root name fresh s with
  | none => none
  | some pr =>
    some ([(program_path ++ ["src", "lib.rs"], counter_lib_rs pr.1 (toSnakeCase name))], pr.2)

/-- `create_program_template_mint_token` (src/rust_template.rs lines 146-291). -/
def create_program_template_mint_token (root : FilePathM) (name : String)
    (program_path : FilePathM) (fresh : Keypair) (s : FsState) :
    Option (FilesM × FsState) :=
  match get_or_create_program_id root name fresh s with
  | none => none
  | some pr =>
    some ([(program_path ++ ["src", "lib.rs"], mint_token_lib_rs pr.1 (toSnakeCase name))], pr.2)

/-- Claim C1 counterexample: with identical caller-supplied inputs — the
same project name, template variant and program path, and the same (empty)
extra parameters — but different entropy for the keypair generated inside
the render, `create_program_template_basic` renders byte-different content:
the program identifier is resolved inside the render step by
`get_or_create_program_id`, which reads the filesystem and, on a read
failure, generates and persists a fresh random keypair; it is not resolved
by the caller and passed in. -/
theorem render_reads_environment_counterexample :
    create_program_template_basic [] "counter" ["programs", "counter"] ⟨"AAA"⟩ [] ≠
      create_program_template_basic [] "counter" ["programs", "counter"] ⟨"BBB"⟩ [] := by
  decide

/-- Claim C1 (amended): the render step itself resolves the program id via
`get_or_create_program_id`; only when the keypair cache file at
`target/deploy/<snake(name)>-keypair.json` is present and readable are two
renders of each template variant byte-identical — output depending only on
the name, the variant and the cached key, independent of the fresh-keypair
entropy — and the filesystem left unchanged. -/
theorem render_deterministic_with_cached_key (root : FilePathM) (name : String)
    (pp : FilePathM) (s : FsState) (k fresh fresh2 : Keypair)
    (hread : read_keypair_file s (keypairPath root name) = some k) :
    create_program_template_basic root name pp fresh s =
      some ([(pp ++ ["src", "lib.rs"], basic_lib_rs k.pk (toSnakeCase name))], s) ∧
    create_program_template_basic root name pp fresh2 s =
      create_program_template_basic root name pp fresh s ∧
    create_program_template_counter root name pp fresh s =
      some ([(pp ++ ["src", "lib.rs"], counter_lib_rs k.pk (toSnakeCase name))], s) ∧
    create_program_template_mint_token root name pp fresh s =
      some ([(pp ++ ["src", "lib.rs"], mint_token_lib_rs k.pk (toSnakeCase name))], s) := by
  have hg : ∀ f : Keypair, get_or_create_program_id root name f s = some (k.pk, s) := by
    intro f
    unfold get_or_create_program_id
    rw [hread]
  refine ⟨?_, ?_, ?_, ?_⟩ <;>
    simp [create_program_template_basic, create_program_template_counter,
      create_program_template_mint_token, hg]

/-- Witness for the amended C1 at a concrete input: with the keypair file
cached, the basic render is a pure function of the cached key. -/
theorem render_deterministic_with_cached_key_witness :
    create_program_template_basic [] "demo" ["programs", "demo"] ⟨"F1"⟩
        [(["target", "deploy", "demo-keypair.json"], Node.file (.blob ⟨"CACHED"⟩))] =
      some ([(["programs", "demo", "src", "lib.rs"], basic_lib_rs "CACHED" "demo")],
        [(["target", "deploy", "demo-keypair.json"], Node.file (.blob ⟨"CACHED"⟩))]) ∧
    create_program_template_basic [] "demo" ["programs", "demo"] ⟨"F2"⟩
        [(["target", "deploy", "demo-keypair.json"], Node.file (.blob ⟨"CACHED"⟩))] =
      create_program_template_basic [] "demo" ["programs", "demo"] ⟨"F1"⟩
        [(["target", "deploy", "demo-keypair.json"], Node.file (.blob ⟨"CACHED"⟩))] := by
  have h := render_deterministic_with_cached_key [] "demo" ["programs", "demo"]
    [(["target", "deploy", "demo-keypair.json"], Node.file (.blob ⟨"CACHED"⟩))]
    ⟨"CACHED"⟩ ⟨"F1"⟩ ⟨"F2"⟩ (by decide)
  refine ⟨?_, h.2.1⟩
  have h1 := h.1
  rw [show toSnakeCase "demo" = "demo" by decide] at h1
  exact h1

/-- `ts_deploy_script` (src/rust_template.rs lines 519-533). -/
def ts_deploy_script : String :=
  "// Migrations are an early feature. Currently, they\x27re nothing more than this
// single deploy script that\x27s invoked from the CLI, injecting a provider
// configured from the workspace\x27s Anchor.toml.

const anchor = require(\"@coral-xyz/anchor\");

module.exports = async function (provider) \x7b
  // Configure client to use the provider.
  anchor.setProvider(provider);

  // Add your deploy script here.
\x7d;
"

/-- `ts_config` (src/rust_template.rs lines 864-876).  The call in
src/lib.rs line 157 passes a `jest` flag, but the definition in src takes
no arguments. -/
def ts_config : String :=
  "\x7b
  \"compilerOptions\": \x7b
    \"types\": [\"mocha\", \"chai\"],
    \"typeRoots\": [\"./node_modules/@types\"],
    \"lib\": [\"es2015\"],
    \"module\": \"commonjs\",
    \"target\": \"es6\",
    \"esModuleInterop\": true
  \x7d
\x7d
"

/-- `git_ignore` (src/rust_template.rs lines 878-886). -/
def git_ignore : String :=
  ".anchor\n.DS_Store\n**/*.rs.bk\nnode_modules\ntest-ledger\n.yarn\n"

/-- `prettier_ignore` (src/rust_template.rs lines 888-897). -/
def prettier_ignore : String :=
  ".anchor\n.DS_Store\ntarget\nnode_modules\ndist\nbuild\ntest-ledger\n"

/-- `get_test_script` (src/rust_template.rs lines 899-901). -/
def get_test_script : String :=
  "yarn run ts-mocha -p ./tsconfig.json -t 1000000 tests/**/*.ts"

/-- `ts_package_json_basic` (src/rust_template.rs lines 545-569). -/
def ts_package_json_basic (license : String) : String :=
  "\x7b
  \"license\": \"" ++ license ++ "\",
  \"scripts\": \x7b
    \"lint:fix\": \"prettier */*.js \\\"*/**/*\x7b.js,.ts\x7d\\\" -w\",
    \"lint\": \"prettier */*.js \\\"*/**/*\x7b.js,.ts\x7d\\\" --check\"
  \x7d,
  \"dependencies\": \x7b
    \"@coral-xyz/anchor\": \"^" ++ ANCHOR_VERSION_M ++ "\"
  \x7d,
  \"devDependencies\": \x7b
    \"chai\": \"^4.3.4\",
    \"mocha\": \"^9.0.3\",
    \"ts-mocha\": \"^10.0.0\",
    \"@types/bn.js\": \"^5.1.0\",
    \"@types/chai\": \"^4.3.0\",
    \"@types/mocha\": \"^9.0.0\",
    \"typescript\": \"^4.3.5\",
    \"prettier\": \"^2.6.2\"
  \x7d
\x7d
"

/-- `ts_package_json_counter` (src/rust_template.rs lines 571-596): adds the
web3.js dependency. -/
def ts_package_json_counter (license : String) : String :=
  "\x7b
  \"license\": \"" ++ license ++ "\",
  \"scripts\": \x7b
    \"lint:fix\": \"prettier */*.js \\\"*/**/*\x7b.js,.ts\x7d\\\" -w\",
    \"lint\": \"prettier */*.js \\\"*/**/*\x7b.js,.ts\x7d\\\" --check\"
  \x7d,
  \"dependencies\": \x7b
    \"@coral-xyz/anchor\": \"^" ++ ANCHOR_VERSION_M ++ "\",
    \"@solana/web3.js\": \"^1.92.3\"
  \x7d,
  \"devDependencies\": \x7b
    \"chai\": \"^4.3.4\",
    \"mocha\": \"^9.0.3\",
    \"ts-mocha\": \"^10.0.0\",
    \"@types/bn.js\": \"^5.1.0\",
    \"@types/chai\": \"^4.3.0\",
    \"@types/mocha\": \"^9.0.0\",
    \"typescript\": \"^4.3.5\",
    \"prettier\": \"^2.6.2\"
  \x7d
\x7d
"

/-- `ts_package_json_mint_token` (src/rust_template.rs lines 598-623): same
text as the counter variant. -/
def ts_package_json_mint_token (license : String) : String :=
  "\x7b
  \"license\": \"" ++ license ++ "\",
  \"scripts\": \x7b
    \"lint:fix\": \"prettier */*.js \\\"*/**/*\x7b.js,.ts\x7d\\\" -w\",
    \"lint\": \"prettier */*.js \\\"*/**/*\x7b.js,.ts\x7d\\\" --check\"
  \x7d,
  \"dependencies\": \x7b
    \"@coral-xyz/anchor\": \"^" ++ ANCHOR_VERSION_M ++ "\",
    \"@solana/web3.js\": \"^1.92.3\"
  \x7d,
  \"devDependencies\": \x7b
    \"chai\": \"^4.3.4\",
    \"mocha\": \"^9.0.3\",
    \"ts-mocha\": \"^10.0.0\",
    \"@types/bn.js\": \"^5.1.0\",
    \"@types/chai\": \"^4.3.0\",
    \"@types/mocha\": \"^9.0.0\",
    \"typescript\": \"^4.3.5\",
    \"prettier\": \"^2.6.2\"
  \x7d
\x7d
"

/-- `ts_package_json` dispatch (src/rust_template.rs lines 535-543).  The
call in src/lib.rs line 160 passes `(jest, license)`, but the definition in
src takes `(license, template)`. -/
def ts_package_json (license : String) (template : ProgramTemplate) : String :=
  match template with
  | .basic => ts_package_json_basic license
  | .counter => ts_package_json_counter license
  | .mintToken => ts_package_json_mint_token license

/-- `ts_mocha_basic` (src/rust_template.rs lines 635-660), as a function of
the project name; the source interpolates the pascal-cased, snake-cased and
raw forms of the name. -/
def ts_mocha_basic (name : String) : String :=
  "import * as anchor from \"@coral-xyz/anchor\";
\x69mport \x7b Program \x7d from \"@coral-xyz/anchor\";
\x69mport \x7b " ++ toPascalCase name ++ " \x7d from \"../target/types/" ++ toSnakeCase name ++ "\";

describe(\"" ++ name ++ "\", () => \x7b
  // Configure the client to use the local cluster.
  anchor.setProvider(anchor.AnchorProvider.env());

  const program = anchor.workspace." ++ toPascalCase name ++ " as Program<" ++ toPascalCase name ++ ">;

  it(\"Is initialized!\", async () => \x7b
    // Add your test here.
    const tx = await program.methods.initialize().rpc();
    console.log(\"Your transaction signature\", tx);
  \x7d);
\x7d);
"

/-- `ts_mocha_counter` (src/rust_template.rs lines 662-719). -/
def ts_mocha_counter (name : String) : String :=
  "import * as anchor from \"@coral-xyz/anchor\";
\x69mport \x7b Program \x7d from \"@coral-xyz/anchor\";
\x69mport \x7b  PublicKey \x7d from \"@solana/web3.js\";
\x69mport \x7b expect \x7d from \"chai\";
\x69mport \x7b " ++ toPascalCase name ++ " \x7d from \"../target/types/" ++ toSnakeCase name ++ "\";


describe(\"" ++ name ++ "\", () => \x7b
  // Configure the client to use the local cluster.
  const provider = anchor.AnchorProvider.env();
  anchor.setProvider(provider);

  const program = anchor.workspace." ++ toPascalCase name ++ " as Program<" ++ toPascalCase name ++ ">;
  let counterAccount: PublicKey;
  let counterBump: number;

  before(\"Boilerplates\", async () => \x7b
    [counterAccount, counterBump] = await PublicKey.findProgramAddress(
      [Buffer.from(\"counter\")],
      program.programId
    );
  \x7d);

  it(\"Initialize counter!\", async () => \x7b
    await program.methods
      .initialize()
      .accounts(\x7b
        counter: counterAccount,
        user: provider.wallet.publicKey,
      \x7d)
      .rpc();

    const counter = await program.account.counter.fetch(counterAccount);
    expect(counter.count.toString()).eq(\"0\")
  \x7d);
  it(\"Increment counter\", async () => \x7b
    await program.methods
      .increment()
      .accounts(\x7b
        counter: counterAccount,
        user: provider.wallet.publicKey,
      \x7d)
      .rpc();

    const counter = await program.account.counter.fetch(counterAccount);
    expect(counter.count.toString()).eq(\"1\")
  \x7d);
\x7d);
"

/-- `ts_mocha_mint_token` (src/rust_template.rs lines 721-862). -/
def ts_mocha_mint_token (name : String) : String :=
  "import * as anchor from \"@coral-xyz/anchor\";
\x69mport \x7b Program \x7d from \"@coral-xyz/anchor\";
\x69mport \x7b PublicKey, SystemProgram, SYSVAR_RENT_PUBKEY \x7d from \"@solana/web3.js\";
\x69mport \x7b assert \x7d from \"chai\";
\x69mport BN from \"bn.js\";
\x69mport \x7b " ++ toPascalCase name ++ " \x7d from \"../target/types/" ++ toSnakeCase name ++ "\";

describe(\"" ++ name ++ "\", () => \x7b
  // Configure the client to use the local cluster.
  const provider = anchor.AnchorProvider.env();
  anchor.setProvider(provider);

  const program = anchor.workspace." ++ toPascalCase name ++ " as Program<" ++ toPascalCase name ++ ">;

  // Metaplex Constants
  const METADATA_SEED = \"metadata\";
  const TOKEN_METADATA_PROGRAM_ID = new PublicKey(
    \"metaqbxxUerdq28cj1RbAWkYQm3ybzjb6a8bt518x1s\"
  );

  // Constants from our program
  const MINT_SEED = \"mint\";

  // Data for our tests
  const payer = provider.wallet.publicKey;
  const metadata = \x7b
    name: \"Icy\",
    symbol: \"ICY\",
    uri: \"https://cdn.discordapp.com/emojis/1192768878183465062.png?size=240&quality=lossless\",
    decimals: 9,
  \x7d;
  const mintAmount = 10;

  // Derive the public key for our mint account
  const [mint] = PublicKey.findProgramAddressSync(
    [Buffer.from(MINT_SEED)],
    program.programId
  );

  // Derive the public key for our metadata account using the Metaplex program
  const [metadataAddress] = PublicKey.findProgramAddressSync(
    [
      Buffer.from(METADATA_SEED),
      TOKEN_METADATA_PROGRAM_ID.toBuffer(),
      mint.toBuffer(),
    ],
    TOKEN_METADATA_PROGRAM_ID
  );

  it(\"initialize\", async () => \x7b
    // Check if the mint account already exists
    const info = await provider.connection.getAccountInfo(mint);
    if (info) \x7b
      return; // Do not attempt to initialize if already initialized
    \x7d
    console.log(\"  Mint not found. Attempting to initialize.\");

    // Define the accounts and arguments for the `initToken` function call
    const context = \x7b
      metadata: metadataAddress,
      mint,
      payer,
      rent: SYSVAR_RENT_PUBKEY,
      systemProgram: SystemProgram.programId,
      tokenProgram: anchor.utils.token.TOKEN_PROGRAM_ID,
      tokenMetadataProgram: TOKEN_METADATA_PROGRAM_ID,
    \x7d;

    // Call the `initToken` function to initialize the mint account
    const txHash = await program.methods
      .initToken(metadata)
      .accounts(context)
      .rpc();

    // Wait for confirmation and log transaction details
    await provider.connection.confirmTransaction(txHash, \"finalized\");
    console.log(`  https://explorer.solana.com/tx/$\x7btxHash\x7d?cluster=devnet`);

    // Verify that the mint account was initialized
    const newInfo = await provider.connection.getAccountInfo(mint);
    assert(newInfo, \"  Mint should be initialized.\");
  \x7d);

  it(\"mint tokens\", async () => \x7b
    // Derive the associated token account address for the payer
    const destination = anchor.utils.token.associatedAddress(\x7b
      mint: mint,
      owner: payer,
    \x7d);

    // Get initial token balance (0 if account not yet created)
    let initialBalance: number;
    try \x7b
      const balance = await provider.connection.getTokenAccountBalance(
        destination
      );
      initialBalance = balance.value.uiAmount;
    \x7d catch \x7b
      // Token account not yet initiated has 0 balance
      initialBalance = 0;
    \x7d

    // Define the accounts and arguments for the `mintTokens` function call
    const context = \x7b
      mint,
      destination,
      payer,
      rent: SYSVAR_RENT_PUBKEY,
      systemProgram: SystemProgram.programId,
      tokenProgram: anchor.utils.token.TOKEN_PROGRAM_ID,
      associatedTokenProgram: anchor.utils.token.ASSOCIATED_PROGRAM_ID,
    \x7d;

    // Call the `mintTokens` function to mint tokens
    const txHash = await program.methods
      .mintTokens(new BN(mintAmount * 10 ** metadata.decimals))
      .accounts(context)
      .rpc();
    await provider.connection.confirmTransaction(txHash);
    console.log(`  https://explorer.solana.com/tx/$\x7btxHash\x7d?cluster=devnet`);

    // check icy balance of payer
    const postBalance = (
      await provider.connection.getTokenAccountBalance(destination)
    ).value.uiAmount;
    assert.equal(
      initialBalance + mintAmount,
      postBalance,
      \"Post balance should equal initial plus mint amount\"
    );
  \x7d);
\x7d);
"

/-- `ts_mocha` dispatch (src/rust_template.rs lines 625-633). -/
def ts_mocha (name : String) (template : ProgramTemplate) : String :=
  match template with
  | .basic => ts_mocha_basic name
  | .counter => ts_mocha_counter name
  | .mintToken => ts_mocha_mint_token name

/-- `create_test_files` (src/rust_template.rs lines 983-990): ensure the
tests directory exists and write `tests/<project_name>.ts` with the mocha
harness.  (src/lib.rs line 166 instead calls a `TestTemplate` method that
does not exist in src; this free function is the code that is present.) -/
def create_test_files (root : FilePathM) (project_name : String)
    (template : ProgramTemplate) (s : FsState) : Option FsState :=
  match createDirAllT s (root ++ ["tests"]) with
  | none => none
  | some pr =>
    writeT pr.1 (root ++ ["tests", project_name ++ ".ts"])
      (.text (ts_mocha project_name template))

/-- `create_program` (src/rust_template.rs lines 29-44), with the working
directory `root` made explicit and `Keypair::new` entropy threaded as
`fresh`. -/
def create_program (root : FilePathM) (name : String) (template : ProgramTemplate)
    (fresh : Keypair) (s : FsState) : Option FsState :=
  let program_path := root ++ ["programs", name]
  let common_files : FilesM :=
    [(root ++ ["Cargo.toml"], workspace_manifest),
     (program_path ++ ["Cargo.toml"], cargo_toml name template),
     (program_path ++ ["Xargo.toml"], xargo_toml)]
  match (match template with
    | .basic => create_program_template_basic root name program_path fresh s
    | .counter => create_program_template_counter root name program_path fresh s
    | .mintToken => create_program_template_mint_token root name program_path fresh s) with
  | none => none
  | some pr =>
    match createFilesT (common_files ++ pr.1) pr.2 with
    | none => none
    | some pr2 => some pr2.1

/-- Modelled from the spec: the test-template selector
`TestTemplate ∈ {Mocha, Jest, Rust-native}` (spec section 3).  src/lib.rs
\x69mports `TestTemplate` from `rust_template`, but no such type exists in
src. -/
inductive TestTemplate where
  | mocha | jest | rustNative
deriving DecidableEq

/-- The program source payload per template variant. -/
def lib_rs_content (template : ProgramTemplate) (pid modName : String) : String :=
  match template with
  | .basic => basic_lib_rs pid modName
  | .counter => counter_lib_rs pid modName
  | .mintToken => mint_token_lib_rs pid modName

/-- The file set the template catalog renders for one `(program_template,
test_template)` choice: the four files of `create_program`
(src/rust_template.rs lines 30-43) with the resolved program id as a
parameter, plus the one test-harness file `tests/<name>.ts` written by
`create_test_files` (lines 983-990).  The per-variant `TestTemplate` code
is absent from src (spec section 4.2: each test variant supplies one
test-harness file), and `create_test_files` produces the same path for
every variant, so the selector does not change the path set. -/
def renderFileSet (name : String) (template : ProgramTemplate) (tt : TestTemplate)
    (pid : String) : FilesM :=
  let program_path : FilePathM := ["programs", name]
  match tt with
  | _ =>
    [(["Cargo.toml"], workspace_manifest),
     (program_path ++ ["Cargo.toml"], cargo_toml name template),
     (program_path ++ ["Xargo.toml"], xargo_toml),
     (program_path ++ ["src", "lib.rs"], lib_rs_content template pid (toSnakeCase name)),
     (["tests", name ++ ".ts"], ts_mocha name template)]

/-- Claim C7: for every template pair from the closed enumerations (and any
name and resolved program id), the rendered file set is non-empty, its
relative paths are pairwise distinct, and it contains the workspace
manifest (`Cargo.toml`), the per-program manifest
(`programs/<name>/Cargo.toml`), the toolchain/build config
(`programs/<name>/Xargo.toml`) and the program source file. -/
theorem render_total_file_set (name : String) (template : ProgramTemplate)
    (tt : TestTemplate) (pid : String) :
    renderFileSet name template tt pid ≠ [] ∧
    ((renderFileSet name template tt pid).map Prod.fst).Nodup ∧
    (["Cargo.toml"], workspace_manifest) ∈ renderFileSet name template tt pid ∧
    (["programs", name, "Cargo.toml"], cargo_toml name template) ∈
      renderFileSet name template tt pid ∧
    (["programs", name, "Xargo.toml"], xargo_toml) ∈ renderFileSet name template tt pid ∧
    (["programs", name, "src", "lib.rs"], lib_rs_content template pid (toSnakeCase name)) ∈
      renderFileSet name template tt pid := by
  cases tt <;>
    refine ⟨by simp [renderFileSet], ?_, by simp [renderFileSet], by simp [renderFileSet],
      by simp [renderFileSet], by simp [renderFileSet]⟩ <;>
    simp [renderFileSet, List.nodup_cons]

theorem isPrefixB_length (a b : FilePathM) (h : isPrefixB a b = true) :
    a.length ≤ b.length := by
  rw [isPrefixB_iff] at h
  obtain ⟨t, rfl⟩ := h
  simp

theorem prefix_of_append_one (root : FilePathM) (a : String) (q : FilePathM)
    (hpre : isPrefixB q (root ++ [a]) = true) :
    isPrefixB q root = true ∨ q = root ++ [a] := by
  rw [isPrefixB_iff] at hpre
  obtain ⟨t, ht⟩ := hpre
  by_cases ht0 : t = []
  · subst ht0
    right
    simpa using ht
  · left
    rw [isPrefixB_iff]
    refine ⟨t.dropLast, ?_⟩
    have := congrArg List.dropLast ht
    rwa [List.dropLast_append_of_ne_nil _ ht0, show (root ++ [a]).dropLast = root by simp]
      at this

theorem prefix_of_append_two (root : FilePathM) (a b : String) (q : FilePathM)
    (hpre : isPrefixB q (root ++ [a, b]) = true) :
    isPrefixB q root = true ∨ q = root ++ [a] ∨ q = root ++ [a, b] := by
  have h2 : isPrefixB q ((root ++ [a]) ++ [b]) = true := by
    rw [show (root ++ [a]) ++ [b] = root ++ [a, b] by simp]
    exact hpre
  rcases prefix_of_append_one (root ++ [a]) b q h2 with h | h
  · rcases prefix_of_append_one root a q h with h' | h'
    · exact Or.inl h'
    · exact Or.inr (Or.inl h')
  · right
    right
    rw [h]
    simp

theorem mkdir_all_dirs (cs : List String) :
    ∀ (s : FsState) (base : FilePathM),
      (∀ q, q ≠ [] → isPrefixB q cs = true → lookupN s (base ++ q) = some .dir) →
      mkdirFrom s base cs = some (s, []) := by
  induction cs with
  | nil => intro s base _; rfl
  | cons c rest ih =>
    intro s base h
    have hc : lookupN s (base ++ [c]) = some .dir := h [c] (by simp) (by simp [isPrefixB])
    have hrest : mkdirFrom s (base ++ [c]) rest = some (s, []) := by
      apply ih
      intro q hq hpre
      have := h (c :: q) (by simp) (by simp [isPrefixB, hpre])
      rw [show base ++ (c :: q) = (base ++ [c]) ++ q by simp] at this
      exact this
    unfold mkdirFrom addDir
    rw [hc]
    simp [hrest]

theorem writeT_preserve_ne (s : FsState) (p : FilePathM) (c : FData) (s' : FsState)
    (h : writeT s p c = some s') (r : FilePathM) (hr : r ≠ p) :
    lookupN s' r = lookupN s r := by
  obtain ⟨rfl, _, _⟩ := writeT_some s p c s' h
  exact lookupN_setN_ne _ _ _ _ (fun he => hr he.symm)

theorem writeT_file_kind (s : FsState) (p : FilePathM) (c : FData) (s' : FsState)
    (h : writeT s p c = some s') (r : FilePathM) (hr : ∃ d, lookupN s r = some (.file d)) :
    ∃ d, lookupN s' r = some (.file d) := by
  obtain ⟨rfl, _, _⟩ := writeT_some s p c s' h
  by_cases hrp : p = r
  · subst hrp
    exact ⟨c, lookupN_setN_self _ _ _⟩
  · rw [lookupN_setN_ne _ _ _ _ hrp]
    exact hr

theorem writeT_dir_kind (s : FsState) (p : FilePathM) (c : FData) (s' : FsState)
    (h : writeT s p c = some s') (r : FilePathM) (hr : lookupN s r = some .dir) :
    lookupN s' r = some .dir := by
  obtain ⟨rfl, hnd, _⟩ := writeT_some s p c s' h
  have hrp : p ≠ r := by
    intro he
    rw [he, hr] at hnd
    exact hnd rfl
  rw [lookupN_setN_ne _ _ _ _ hrp]
  exact hr

theorem writeT_exists (s : FsState) (p : FilePathM) (c : FData) (s' : FsState)
    (h : writeT s p c = some s') (r : FilePathM) (hr : pathExistsN s r = true) :
    pathExistsN s' r = true := by
  obtain ⟨rfl, _, _⟩ := writeT_some s p c s' h
  by_cases hrp : p = r
  · subst hrp
    simp [pathExistsN, lookupN_setN_self]
  · rw [pathExistsN, lookupN_setN_ne _ _ _ _ hrp]
    exact hr

theorem mkdirFrom_exists (cs : List String) (s : FsState) (base : FilePathM)
    (s' : FsState) (l : List FilePathM) (h : mkdirFrom s base cs = some (s', l))
    (r : FilePathM) (hr : pathExistsN s r = true) : pathExistsN s' r = true := by
  rw [pathExistsN] at hr ⊢
  cases ho : lookupN s r with
  | none => rw [ho] at hr; simp at hr
  | some n => rw [mkdirFrom_preserve cs s base s' l h r n ho]; rfl

theorem createFilesT_exists (fs : FilesM) (s s' : FsState) (l : List FilePathM)
    (h : createFilesT fs s = some (s', l)) (r : FilePathM)
    (hr : pathExistsN s r = true) : pathExistsN s' r = true := by
  rw [pathExistsN] at hr ⊢
  cases ho : lookupN s r with
  | none => rw [ho] at hr; simp at hr
  | some n => rw [createFilesT_preserve fs s s' l h r n ho]; rfl

theorem gocpi_inv (root : FilePathM) (name : String) (fresh : Keypair) (s : FsState)
    (pid : String) (s' : FsState)
    (h : get_or_create_program_id root name fresh s = some (pid, s')) :
    (read_keypair_file s (keypairPath root name) = some ⟨pid⟩ ∧ s' = s) ∨
    (read_keypair_file s (keypairPath root name) = none ∧ pid = fresh.pk ∧
      ∃ pr, createDirAllT s (keypairPath root name).dropLast = some pr ∧
        writeT pr.1 (keypairPath root name) (.blob fresh) = some s') := by
  unfold get_or_create_program_id at h
  split at h
  · rename_i kp hread
    injection h with h'
    injection h' with ha hb
    subst ha
    subst hb
    left
    exact ⟨by rw [hread], rfl⟩
  · rename_i hread
    split at h
    · simp at h
    · rename_i s2 hw
      injection h with h'
      injection h' with ha hb
      subst ha
      subst hb
      right
      unfold write_keypair_file at hw
      split at hw
      · simp at hw
      · rename_i pr heq1
        exact ⟨hread, rfl, pr, heq1, hw⟩

theorem gocpi_cached (root : FilePathM) (name : String) (fresh : Keypair) (s : FsState)
    (k : Keypair) (hk : lookupN s (keypairPath root name) = some (.file (.blob k))) :
    get_or_create_program_id root name fresh s = some (k.pk, s) := by
  unfold get_or_create_program_id read_keypair_file
  rw [hk]

theorem gocpi_blob (root : FilePathM) (name : String) (fresh : Keypair) (s : FsState)
    (pid : String) (s' : FsState)
    (h : get_or_create_program_id root name fresh s = some (pid, s')) :
    ∃ k : Keypair, lookupN s' (keypairPath root name) = some (.file (.blob k)) ∧ pid = k.pk := by
  rcases gocpi_inv root name fresh s pid s' h with ⟨hread, rfl⟩ | ⟨_, hpid, pr, _, hw⟩
  · unfold read_keypair_file at hread
    split at hread
    · rename_i k hk
      injection hread with h'
      exact ⟨k, hk, by rw [h']⟩
    · simp at hread
  · obtain ⟨rfl, _, _⟩ := writeT_some _ _ _ _ hw
    exact ⟨fresh, lookupN_setN_self _ _ _, hpid⟩

theorem gocpi_blob_kind (root : FilePathM) (name : String) (fresh : Keypair) (s : FsState)
    (pid : String) (s' : FsState)
    (h : get_or_create_program_id root name fresh s = some (pid, s'))
    (r : FilePathM) (k : Keypair) (hr : lookupN s r = some (.file (.blob k))) :
    lookupN s' r = some (.file (.blob k)) := by
  rcases gocpi_inv root name fresh s pid s' h with ⟨_, rfl⟩ | ⟨hread, _, pr, hmk, hw⟩
  · exact hr
  · have hrkp : r ≠ keypairPath root name := by
      intro he
      subst he
      unfold read_keypair_file at hread
      rw [hr] at hread
      cases hread
    have h1 : lookupN pr.1 r = some (.file (.blob k)) :=
      mkdirFrom_preserve _ s [] pr.1 pr.2 hmk r _ hr
    rw [writeT_preserve_ne _ _ _ _ hw r hrkp]
    exact h1

theorem gocpi_file_kind (root : FilePathM) (name : String) (fresh : Keypair) (s : FsState)
    (pid : String) (s' : FsState)
    (h : get_or_create_program_id root name fresh s = some (pid, s'))
    (r : FilePathM) (hr : ∃ d, lookupN s r = some (.file d)) :
    ∃ d, lookupN s' r = some (.file d) := by
  rcases gocpi_inv root name fresh s pid s' h with ⟨_, rfl⟩ | ⟨_, _, pr, hmk, hw⟩
  · exact hr
  · obtain ⟨d, hd⟩ := hr
    exact writeT_file_kind _ _ _ _ hw r ⟨d, mkdirFrom_preserve _ s [] pr.1 pr.2 hmk r _ hd⟩

theorem gocpi_dir_kind (root : FilePathM) (name : String) (fresh : Keypair) (s : FsState)
    (pid : String) (s' : FsState)
    (h : get_or_create_program_id root name fresh s = some (pid, s'))
    (r : FilePathM) (hr : lookupN s r = some .dir) : lookupN s' r = some .dir := by
  rcases gocpi_inv root name fresh s pid s' h with ⟨_, rfl⟩ | ⟨_, _, pr, hmk, hw⟩
  · exact hr
  · exact writeT_dir_kind _ _ _ _ hw r (mkdirFrom_preserve _ s [] pr.1 pr.2 hmk r _ hr)

theorem gocpi_exists (root : FilePathM) (name : String) (fresh : Keypair) (s : FsState)
    (pid : String) (s' : FsState)
    (h : get_or_create_program_id root name fresh s = some (pid, s'))
    (r : FilePathM) (hr : pathExistsN s r = true) : pathExistsN s' r = true := by
  rcases gocpi_inv root name fresh s pid s' h with ⟨_, rfl⟩ | ⟨_, _, pr, hmk, hw⟩
  · exact hr
  · exact writeT_exists _ _ _ _ hw r (mkdirFrom_exists _ s [] pr.1 pr.2 hmk r hr)

theorem gocpi_wf (root : FilePathM) (name : String) (fresh : Keypair) (s : FsState)
    (pid : String) (s' : FsState)
    (h : get_or_create_program_id root name fresh s = some (pid, s'))
    (hwf : WFState s) : WFState s' := by
  rcases gocpi_inv root name fresh s pid s' h with ⟨_, rfl⟩ | ⟨_, _, pr, hmk, hw⟩
  · exact hwf
  · exact wf_writeT _ _ _ _ (wf_mkdirFrom _ s [] pr.1 pr.2 hwf (Or.inl rfl) hmk) hw

theorem wf_createFilesT (fs : FilesM) :
    ∀ (s s' : FsState) (l : List FilePathM), WFState s →
      createFilesT fs s = some (s', l) → WFState s' := by
  induction fs with
  | nil =>
    intro s s' l hwf h
    unfold createFilesT at h
    injection h with h'
    cases h'
    exact hwf
  | cons e rest ih =>
    obtain ⟨p, c⟩ := e
    intro s s' l hwf h
    unfold createFilesT at h
    split at h
    · exact ih s s' l hwf h
    · split at h
      · split at h
        · simp at h
        · rename_i pr heq1
          split at h
          · simp at h
          · rename_i s2 heq2
            split at h
            · simp at h
            · rename_i pr2 heq3
              injection h with h'
              injection h' with ha hb
              subst ha
              have hwf1 : WFState pr.1 := wf_mkdirFrom _ s [] pr.1 pr.2 hwf (Or.inl rfl) heq1
              exact ih _ _ _ (wf_writeT _ _ _ _ hwf1 heq2) heq3
      · split at h
        · simp at h
        · rename_i pr heq1
          split at h
          · simp at h
          · rename_i pr2 heq2
            injection h with h'
            injection h' with ha hb
            subst ha
            exact ih _ _ _ (wf_mkdirFrom _ s [] pr.1 pr.2 hwf (Or.inl rfl) heq1) heq2

theorem create_program_inv (root : FilePathM) (name : String) (t : ProgramTemplate)
    (fresh : Keypair) (s s' : FsState)
    (h : create_program root name t fresh s = some s') :
    ∃ pid smid l entries, get_or_create_program_id root name fresh s = some (pid, smid) ∧
      createFilesT entries smid = some (s', l) ∧
      entries =
        [(root ++ ["Cargo.toml"], workspace_manifest),
         (root ++ ["programs", name, "Cargo.toml"], cargo_toml name t),
         (root ++ ["programs", name, "Xargo.toml"], xargo_toml),
         (root ++ ["programs", name, "src", "lib.rs"],
           lib_rs_content t pid (toSnakeCase name))] := by
  cases t with
  | basic =>
    simp only [create_program] at h
    split at h
    · simp at h
    · rename_i pr hpr
      split at h
      · simp at h
      · rename_i pr2 hcf
        injection h with h'
        subst h'
        unfold create_program_template_basic at hpr
        split at hpr
        · simp at hpr
        · rename_i g hg
          injection hpr with hpr'
          cases hpr'
          have hcf2 : createFilesT
              [(root ++ ["Cargo.toml"], workspace_manifest),
               (root ++ ["programs", name] ++ ["Cargo.toml"], cargo_toml name .basic),
               (root ++ ["programs", name] ++ ["Xargo.toml"], xargo_toml),
               (root ++ ["programs", name] ++ ["src", "lib.rs"],
                 basic_lib_rs g.1 (toSnakeCase name))] g.2 = some pr2 := hcf
          refine ⟨g.1, g.2, pr2.2,
            [(root ++ ["Cargo.toml"], workspace_manifest),
             (root ++ ["programs", name] ++ ["Cargo.toml"], cargo_toml name .basic),
             (root ++ ["programs", name] ++ ["Xargo.toml"], xargo_toml),
             (root ++ ["programs", name] ++ ["src", "lib.rs"],
               basic_lib_rs g.1 (toSnakeCase name))],
            by rw [hg], hcf2, by simp [lib_rs_content, List.append_assoc]⟩
  | counter =>
    simp only [create_program] at h
    split at h
    · simp at h
    · rename_i pr hpr
      split at h
      · simp at h
      · rename_i pr2 hcf
        injection h with h'
        subst h'
        unfold create_program_template_counter at hpr
        split at hpr
        · simp at hpr
        · rename_i g hg
          injection hpr with hpr'
          cases hpr'
          have hcf2 : createFilesT
              [(root ++ ["Cargo.toml"], workspace_manifest),
               (root ++ ["programs", name] ++ ["Cargo.toml"], cargo_toml name .counter),
               (root ++ ["programs", name] ++ ["Xargo.toml"], xargo_toml),
               (root ++ ["programs", name] ++ ["src", "lib.rs"],
                 counter_lib_rs g.1 (toSnakeCase name))] g.2 = some pr2 := hcf
          refine ⟨g.1, g.2, pr2.2,
            [(root ++ ["Cargo.toml"], workspace_manifest),
             (root ++ ["programs", name] ++ ["Cargo.toml"], cargo_toml name .counter),
             (root ++ ["programs", name] ++ ["Xargo.toml"], xargo_toml),
             (root ++ ["programs", name] ++ ["src", "lib.rs"],
               counter_lib_rs g.1 (toSnakeCase name))],
            by rw [hg], hcf2, by simp [lib_rs_content, List.append_assoc]⟩
  | mintToken =>
    simp only [create_program] at h
    split at h
    · simp at h
    · rename_i pr hpr
      split at h
      · simp at h
      · rename_i pr2 hcf
        injection h with h'
        subst h'
        unfold create_program_template_mint_token at hpr
        split at hpr
        · simp at hpr
        · rename_i g hg
          injection hpr with hpr'
          cases hpr'
          have hcf2 : createFilesT
              [(root ++ ["Cargo.toml"], workspace_manifest),
               (root ++ ["programs", name] ++ ["Cargo.toml"], cargo_toml name .mintToken),
               (root ++ ["programs", name] ++ ["Xargo.toml"], xargo_toml),
               (root ++ ["programs", name] ++ ["src", "lib.rs"],
                 mint_token_lib_rs g.1 (toSnakeCase name))] g.2 = some pr2 := hcf
          refine ⟨g.1, g.2, pr2.2,
            [(root ++ ["Cargo.toml"], workspace_manifest),
             (root ++ ["programs", name] ++ ["Cargo.toml"], cargo_toml name .mintToken),
             (root ++ ["programs", name] ++ ["Xargo.toml"], xargo_toml),
             (root ++ ["programs", name] ++ ["src", "lib.rs"],
               mint_token_lib_rs g.1 (toSnakeCase name))],
            by rw [hg], hcf2, by simp [lib_rs_content, List.append_assoc]⟩

theorem create_program_file_kind (root : FilePathM) (name : String) (t : ProgramTemplate)
    (fresh : Keypair) (s s' : FsState)
    (h : create_program root name t fresh s = some s') (r : FilePathM)
    (hr : ∃ d, lookupN s r = some (.file d)) : ∃ d, lookupN s' r = some (.file d) := by
  obtain ⟨pid, smid, l, entries, hg, hcf, _⟩ := create_program_inv root name t fresh s s' h
  obtain ⟨d, hd⟩ := gocpi_file_kind root name fresh s pid smid hg r hr
  exact ⟨d, createFilesT_preserve _ _ _ _ hcf r _ hd⟩

theorem create_program_dir_kind (root : FilePathM) (name : String) (t : ProgramTemplate)
    (fresh : Keypair) (s s' : FsState)
    (h : create_program root name t fresh s = some s') (r : FilePathM)
    (hr : lookupN s r = some .dir) : lookupN s' r = some .dir := by
  obtain ⟨pid, smid, l, entries, hg, hcf, _⟩ := create_program_inv root name t fresh s s' h
  exact createFilesT_preserve _ _ _ _ hcf r _ (gocpi_dir_kind root name fresh s pid smid hg r hr)

theorem create_program_blob_kind (root : FilePathM) (name : String) (t : ProgramTemplate)
    (fresh : Keypair) (s s' : FsState)
    (h : create_program root name t fresh s = some s') (r : FilePathM) (k : Keypair)
    (hr : lookupN s r = some (.file (.blob k))) : lookupN s' r = some (.file (.blob k)) := by
  obtain ⟨pid, smid, l, entries, hg, hcf, _⟩ := create_program_inv root name t fresh s s' h
  exact createFilesT_preserve _ _ _ _ hcf r _
    (gocpi_blob_kind root name fresh s pid smid hg r k hr)

theorem create_program_exists (root : FilePathM) (name : String) (t : ProgramTemplate)
    (fresh : Keypair) (s s' : FsState)
    (h : create_program root name t fresh s = some s') (r : FilePathM)
    (hr : pathExistsN s r = true) : pathExistsN s' r = true := by
  obtain ⟨pid, smid, l, entries, hg, hcf, _⟩ := create_program_inv root name t fresh s s' h
  exact createFilesT_exists _ _ _ _ hcf r (gocpi_exists root name fresh s pid smid hg r hr)

theorem create_program_wf (root : FilePathM) (name : String) (t : ProgramTemplate)
    (fresh : Keypair) (s s' : FsState)
    (h : create_program root name t fresh s = some s') (hwf : WFState s) : WFState s' := by
  obtain ⟨pid, smid, l, entries, hg, hcf, _⟩ := create_program_inv root name t fresh s s' h
  exact wf_createFilesT _ smid s' l (gocpi_wf root name fresh s pid smid hg hwf) hcf

theorem create_test_files_inv (root : FilePathM) (project_name : String)
    (t : ProgramTemplate) (s s' : FsState)
    (h : create_test_files root project_name t s = some s') :
    ∃ pr, createDirAllT s (root ++ ["tests"]) = some pr ∧
      writeT pr.1 (root ++ ["tests", project_name ++ ".ts"])
        (.text (ts_mocha project_name t)) = some s' := by
  unfold create_test_files at h
  split at h
  · simp at h
  · rename_i pr heq
    exact ⟨pr, heq, h⟩

theorem create_test_files_file_kind (root : FilePathM) (project_name : String)
    (t : ProgramTemplate) (s s' : FsState)
    (h : create_test_files root project_name t s = some s') (r : FilePathM)
    (hr : ∃ d, lookupN s r = some (.file d)) : ∃ d, lookupN s' r = some (.file d) := by
  obtain ⟨pr, hmk, hw⟩ := create_test_files_inv root project_name t s s' h
  obtain ⟨d, hd⟩ := hr
  exact writeT_file_kind _ _ _ _ hw r ⟨d, mkdirFrom_preserve _ s [] pr.1 pr.2 hmk r _ hd⟩

theorem create_test_files_dir_kind (root : FilePathM) (project_name : String)
    (t : ProgramTemplate) (s s' : FsState)
    (h : create_test_files root project_name t s = some s') (r : FilePathM)
    (hr : lookupN s r = some .dir) : lookupN s' r = some .dir := by
  obtain ⟨pr, hmk, hw⟩ := create_test_files_inv root project_name t s s' h
  exact writeT_dir_kind _ _ _ _ hw r (mkdirFrom_preserve _ s [] pr.1 pr.2 hmk r _ hr)

theorem create_test_files_blob_kind (root : FilePathM) (project_name : String)
    (t : ProgramTemplate) (s s' : FsState)
    (h : create_test_files root project_name t s = some s') (r : FilePathM) (k : Keypair)
    (hr : lookupN s r = some (.file (.blob k)))
    (hrne : r ≠ root ++ ["tests", project_name ++ ".ts"]) :
    lookupN s' r = some (.file (.blob k)) := by
  obtain ⟨pr, hmk, hw⟩ := create_test_files_inv root project_name t s s' h
  rw [writeT_preserve_ne _ _ _ _ hw r hrne]
  exact mkdirFrom_preserve _ s [] pr.1 pr.2 hmk r _ hr

theorem create_test_files_exists (root : FilePathM) (project_name : String)
    (t : ProgramTemplate) (s s' : FsState)
    (h : create_test_files root project_name t s = some s') (r : FilePathM)
    (hr : pathExistsN s r = true) : pathExistsN s' r = true := by
  obtain ⟨pr, hmk, hw⟩ := create_test_files_inv root project_name t s s' h
  exact writeT_exists _ _ _ _ hw r (mkdirFrom_exists _ s [] pr.1 pr.2 hmk r hr)

theorem create_test_files_wf (root : FilePathM) (project_name : String)
    (t : ProgramTemplate) (s s' : FsState)
    (h : create_test_files root project_name t s = some s') (hwf : WFState s) :
    WFState s' := by
  obtain ⟨pr, hmk, hw⟩ := create_test_files_inv root project_name t s s' h
  exact wf_writeT _ _ _ _ (wf_mkdirFrom _ s [] pr.1 pr.2 hwf (Or.inl rfl) hmk) hw

/-- Modelled from the spec: the JavaScript-flavor package manifest.
src/lib.rs line 149 calls `rust_template::package_json(jest, license)`, but
no such function exists in src; the spec (sections 1 and 4.2) treats the
rendered manifests as opaque static text payloads parameterized by the
resolved license. -/
def package_json_js (license : String) : String :=
  "\x7b\n  \"license\": \"" ++ license ++ "\"\n\x7d\n"

/-- Modelled from the spec: the JavaScript-flavor deploy script
(`rust_template::deploy_script`, called at src/lib.rs line 153 but absent
from src); an opaque static payload. -/
def deploy_script_js : String := "// deploy script\n"

/-- The filesystem-effect model of `init` (src/lib.rs lines 80-191), up to
the external collaborators the spec scopes out (the package installer, git
init, the npm license probe — the resolved license arrives as the
`license` parameter — and stdout).  `fresh` is the entropy for any keypair
generated; `testScript` is the value of
`test_template.get_test_script(javascript)`, whose `TestTemplate` code is
absent from src.  Paths are rooted at the workspace directory
`[project_name]`, reflecting `set_current_dir`.  A failing step returns
the state reached at that point: `create_dir` on an existing root without
`force` maps to `workspaceExists`, any other failing filesystem call to
`ioFailure`. -/
def initModel (name : String) (javascript : Bool) (template : ProgramTemplate)
    (force : Bool) (fresh : Keypair) (license testScript : String)
    (s0 : FsState) : FsState × Option InitError :=
  match nameCheck (rustNameOf name) with
  | some e => (s0, some e)
  | none =>
    if !force && pathExistsN s0 [projectNameOf name] then (s0, some .workspaceExists)
    else
      match createDirAllT s0 [projectNameOf name] with
      | none => (s0, some .ioFailure)
      | some pr1 =>
        match createDirAllT pr1.1 [projectNameOf name, "app"] with
        | none => (pr1.1, some .ioFailure)
        | some pr2 =>
          match get_or_create_program_id [projectNameOf name] (rustNameOf name) fresh pr2.1 with
          | none => (pr2.1, some .ioFailure)
          | some pid =>
            match writeT pid.2 [projectNameOf name, "Anchor.toml"]
                (.text (create_anchor_toml pid.1 testScript template)) with
            | none => (pid.2, some .ioFailure)
            | some s4 =>
              match writeT s4 [projectNameOf name, ".gitignore"] (.text git_ignore) with
              | none => (s4, some .ioFailure)
              | some s5 =>
                match writeT s5 [projectNameOf name, ".prettierignore"] (.text prettier_ignore) with
                | none => (s5, some .ioFailure)
                | some s6 =>
                  match (if force then
                      removeDirAllT s6 [projectNameOf name, "programs", projectNameOf name]
                    else some s6) with
                  | none => (s6, some .ioFailure)
                  | some s7 =>
                    match create_program [projectNameOf name] (projectNameOf name)
                        template fresh s7 with
                    | none => (s7, some .ioFailure)
                    | some s8 =>
                      match createDirAllT s8 [projectNameOf name, "migrations"] with
                      | none => (s8, some .ioFailure)
                      | some pr9 =>
                        match (if javascript then
                            match writeT pr9.1 [projectNameOf name, "package.json"]
                                (.text (package_json_js license)) with
                            | none => none
                            | some sa =>
                              writeT sa [projectNameOf name, "migrations", "deploy.js"]
                                (.text deploy_script_js)
                          else
                            match writeT pr9.1 [projectNameOf name, "tsconfig.json"]
                                (.text ts_config) with
                            | none => none
                            | some sa =>
                              match writeT sa [projectNameOf name, "package.json"]
                                  (.text (ts_package_json license template)) with
                              | none => none
                              | some sb =>
                                writeT sb [projectNameOf name, "migrations", "deploy.ts"]
                                  (.text ts_deploy_script)) with
                        | none => (pr9.1, some .ioFailure)
                        | some s10 =>
                          match create_test_files [projectNameOf name] (projectNameOf name)
                              template s10 with
                          | none => (s10, some .ioFailure)
                          | some s11 => (s11, none)

/-- Claim C6: name validation fails — with the single invalid-identifier
error kind — exactly when the derived `identifier_form` is not a legal bare
Rust identifier under syn's grammar (empty, digit-leading, containing an
illegal character, or equal to a rejected keyword) or when it sits in the
extra blocklist `{async, await, try}`; and for every such name, `init`
returns the error with the filesystem untouched.  The concrete conjuncts
exercise the blocklist, a digit-leading name, a Rust keyword, the empty
name, and an accepted name. -/
theorem normalize_invalid_iff (name : String) :
    (nameCheck (rustNameOf name) = some .invalidIdentifier ↔
      (synIdentOk (rustNameOf name) = false ∨
        extra_keywords.contains (rustNameOf name) = true)) ∧
    (∀ (javascript : Bool) (template : ProgramTemplate) (force : Bool) (fresh : Keypair)
        (license testScript : String) (s0 : FsState),
      (synIdentOk (rustNameOf name) = false ∨
        extra_keywords.contains (rustNameOf name) = true) →
      initModel name javascript template force fresh license testScript s0 =
        (s0, some .invalidIdentifier)) ∧
    nameCheck (rustNameOf "try") = some .invalidIdentifier ∧
    nameCheck (rustNameOf "async") = some .invalidIdentifier ∧
    nameCheck (rustNameOf "await") = some .invalidIdentifier ∧
    nameCheck (rustNameOf "9lives") = some .invalidIdentifier ∧
    nameCheck (rustNameOf "fn") = some .invalidIdentifier ∧
    nameCheck (rustNameOf "") = some .invalidIdentifier ∧
    nameCheck (rustNameOf "my-app") = none := by
  have hiff : nameCheck (rustNameOf name) = some .invalidIdentifier ↔
      (synIdentOk (rustNameOf name) = false ∨
        extra_keywords.contains (rustNameOf name) = true) := by
    cases hs : synIdentOk (rustNameOf name) <;>
      cases hc : extra_keywords.contains (rustNameOf name) <;>
        simp [nameCheck, hs, hc] <;> simpa using hc
  refine ⟨hiff, ?_, by decide, by decide, by decide, by decide, by decide, by decide, by decide⟩
  intro javascript template force fresh license testScript s0 hcond
  have hnc : nameCheck (rustNameOf name) = some .invalidIdentifier := hiff.mpr hcond
  unfold initModel
  rw [hnc]

/-- Witness for C6: `init` on the blocklisted name "try" fails before
touching the filesystem. -/
theorem normalize_invalid_iff_witness :
    initModel "try" false .basic false ⟨"K"⟩ "MIT" "yarn test" [] =
      ([], some .invalidIdentifier) :=
  (normalize_invalid_iff "try").2.1 false .basic false ⟨"K"⟩ "MIT" "yarn test" []
    (by decide)

theorem hasExt_append_single (l : FilePathM) (c : String) :
    hasExt (l ++ [c]) = ((c.data.drop 1).contains '.') := by
  simp [hasExt, List.getLast?_concat]

theorem createFilesT_nil_eq (s : FsState) : createFilesT [] s = some (s, []) := by
  unfold createFilesT
  rfl

theorem createFilesT_cons_skip (p : FilePathM) (c : String) (rest : FilesM) (s : FsState)
    (h : pathExistsN s p = true) :
    createFilesT ((p, c) :: rest) s = createFilesT rest s := by
  conv_lhs => unfold createFilesT
  rw [if_pos h]

theorem createFilesT_cons_create (p : FilePathM) (c : String) (rest : FilesM)
    (s s1 : FsState) (l1 : List FilePathM) (s2 s3 : FsState) (l3 : List FilePathM)
    (hex : pathExistsN s p = false) (hext : hasExt p = true)
    (hmk : createDirAllT s p.dropLast = some (s1, l1))
    (hw : writeT s1 p (.text c) = some s2)
    (hrest : createFilesT rest s2 = some (s3, l3)) :
    createFilesT ((p, c) :: rest) s = some (s3, l1 ++ [p] ++ l3) := by
  unfold createFilesT
  rw [if_neg (by simp [hex]), if_pos hext]
  simp only [hmk, hw, hrest]

theorem create_program_files_ok (root : FilePathM) (name : String) (t : ProgramTemplate)
    (fresh : Keypair) (s : FsState) (k : Keypair)
    (hkp : lookupN s (keypairPath root name) = some (.file (.blob k)))
    (hroot : ∀ q, q ≠ [] → isPrefixB q root = true → lookupN s q = some .dir)
    (hprog : lookupN s (root ++ ["programs"]) = some .dir)
    (he1 : pathExistsN s (root ++ ["Cargo.toml"]) = true)
    (hsub : ∀ r, isPrefixB (root ++ ["programs", name]) r = true → lookupN s r = none) :
    ∃ s', create_program root name t fresh s = some s' := by
  have hg := gocpi_cached root name fresh s k hkp
  have hppne : root ++ ["programs", name] ≠ [] := by simp
  have hpfx_self : isPrefixB (root ++ ["programs", name]) (root ++ ["programs", name]) = true :=
    isPrefixB_refl _
  -- the sub-tree chain below `root` is made of directories or absent
  have hchain : ∀ q, q ≠ [] → isPrefixB q (root ++ ["programs", name]) = true →
      lookupN s q = some .dir ∨ lookupN s q = none := by
    intro q hq hpre
    rcases prefix_of_append_two root "programs" name q hpre with h1 | h1 | h1
    · exact Or.inl (hroot q hq h1)
    · rw [h1]; exact Or.inl hprog
    · rw [h1]; exact Or.inr (hsub _ hpfx_self)
  -- create the program directory chain
  obtain ⟨m2s, m2l, hmk2⟩ := mkdirFrom_ok (root ++ ["programs", name]) s []
    (by
      intro q hq hpre d hl
      rcases hchain q hq hpre with hd | hn
      · rw [show ([] : FilePathM) ++ q = q by simp, hd] at hl
        cases hl
      · rw [show ([] : FilePathM) ++ q = q by simp, hn] at hl
        cases hl)
  have hdirs2 : ∀ q, q ≠ [] → isPrefixB q (root ++ ["programs", name]) = true →
      lookupN m2s q = some .dir := by
    intro q hq hpre
    have := mkdirFrom_post (root ++ ["programs", name]) s [] m2s m2l hmk2 q hq hpre
    simpa using this
  have hunch2 : ∀ r, (root ++ ["programs", name]).length < r.length →
      lookupN m2s r = lookupN s r := by
    intro r hlen
    by_cases hch : lookupN m2s r = lookupN s r
    · exact hch
    · obtain ⟨_, _, q, hq0, hqpre, hqeq⟩ :=
        mkdirFrom_changes (root ++ ["programs", name]) s [] m2s m2l hmk2 r hch
      have := isPrefixB_length q _ hqpre
      rw [hqeq] at hlen
      simp [List.length_append] at hlen this
      omega
  -- write programs/<name>/Cargo.toml
  have he2none : lookupN s ((root ++ ["programs", name]) ++ ["Cargo.toml"]) = none := by
    apply hsub
    rw [isPrefixB_iff]
    exact ⟨["Cargo.toml"], rfl⟩
  have he2none2 : lookupN m2s ((root ++ ["programs", name]) ++ ["Cargo.toml"]) = none := by
    rw [hunch2 _ (by simp)]
    exact he2none
  have hw2 : writeT m2s ((root ++ ["programs", name]) ++ ["Cargo.toml"]) (.text (cargo_toml name t)) =
      some (setN m2s ((root ++ ["programs", name]) ++ ["Cargo.toml"]) (.file (.text (cargo_toml name t)))) := by
    apply writeT_eq
    · rw [he2none2]; simp
    · right
      rw [show ((root ++ ["programs", name]) ++ ["Cargo.toml"]).dropLast = root ++ ["programs", name] by simp]
      exact hdirs2 _ hppne hpfx_self
  set s2 := setN m2s ((root ++ ["programs", name]) ++ ["Cargo.toml"]) (.file (.text (cargo_toml name t))) with hs2
  -- write programs/<name>/Xargo.toml
  have he3none : lookupN s2 ((root ++ ["programs", name]) ++ ["Xargo.toml"]) = none := by
    rw [hs2, lookupN_setN_ne _ _ _ _ (by simp), hunch2 _ (by simp)]
    apply hsub
    rw [isPrefixB_iff]
    exact ⟨["Xargo.toml"], rfl⟩
  have hdirs3 : ∀ q, q ≠ [] → isPrefixB q (root ++ ["programs", name]) = true →
      lookupN s2 q = some .dir := by
    intro q hq hpre
    rw [hs2, lookupN_setN_ne _ _ _ _ ?hne]
    · exact hdirs2 q hq hpre
    case hne =>
      intro he
      have := isPrefixB_length q _ hpre
      rw [← he] at this
      simp at this
  have hw3 : writeT s2 ((root ++ ["programs", name]) ++ ["Xargo.toml"]) (.text xargo_toml) =
      some (setN s2 ((root ++ ["programs", name]) ++ ["Xargo.toml"]) (.file (.text xargo_toml))) := by
    apply writeT_eq
    · rw [he3none]; simp
    · right
      rw [show ((root ++ ["programs", name]) ++ ["Xargo.toml"]).dropLast = root ++ ["programs", name] by simp]
      exact hdirs3 _ hppne hpfx_self
  set s3 := setN s2 ((root ++ ["programs", name]) ++ ["Xargo.toml"]) (.file (.text xargo_toml)) with hs3
  -- create programs/<name>/src and write lib.rs
  have hsrcnone : lookupN s3 ((root ++ ["programs", name]) ++ ["src"]) = none := by
    rw [hs3, lookupN_setN_ne _ _ _ _ (by simp), hs2, lookupN_setN_ne _ _ _ _ (by simp)]
    rw [hunch2 _ (by simp)]
    apply hsub
    rw [isPrefixB_iff]
    exact ⟨["src"], rfl⟩
  have hdirs3' : ∀ q, q ≠ [] → isPrefixB q (root ++ ["programs", name]) = true →
      lookupN s3 q = some .dir := by
    intro q hq hpre
    rw [hs3, lookupN_setN_ne _ _ _ _ ?hne]
    · exact hdirs3 q hq hpre
    case hne =>
      intro he
      have := isPrefixB_length q _ hpre
      rw [← he] at this
      simp at this
  obtain ⟨m4s, m4l, hmk4⟩ := mkdirFrom_ok ((root ++ ["programs", name]) ++ ["src"]) s3 []
    (by
      intro q hq hpre d hl
      rcases prefix_of_append_one (root ++ ["programs", name]) "src" q hpre with h1 | h1
      · rw [show ([] : FilePathM) ++ q = q by simp, hdirs3' q hq h1] at hl
        cases hl
      · rw [show ([] : FilePathM) ++ q = q by simp, h1, hsrcnone] at hl
        cases hl)
  have hsrcdir : lookupN m4s ((root ++ ["programs", name]) ++ ["src"]) = some .dir := by
    have := mkdirFrom_post ((root ++ ["programs", name]) ++ ["src"]) s3 [] m4s m4l hmk4 _
      (by simp) (isPrefixB_refl _)
    simpa using this
  have hunch4 : ∀ r, ((root ++ ["programs", name]) ++ ["src"]).length < r.length →
      lookupN m4s r = lookupN s3 r := by
    intro r hlen
    by_cases hch : lookupN m4s r = lookupN s3 r
    · exact hch
    · obtain ⟨_, _, q, hq0, hqpre, hqeq⟩ :=
        mkdirFrom_changes ((root ++ ["programs", name]) ++ ["src"]) s3 [] m4s m4l hmk4 r hch
      have := isPrefixB_length q _ hqpre
      rw [hqeq] at hlen
      simp at hlen this
      omega
  have he4none : lookupN m4s ((root ++ ["programs", name]) ++ ["src", "lib.rs"]) = none := by
    rw [show (root ++ ["programs", name]) ++ ["src", "lib.rs"] =
        ((root ++ ["programs", name]) ++ ["src"]) ++ ["lib.rs"] by simp]
    rw [hunch4 _ (by simp)]
    rw [show ((root ++ ["programs", name]) ++ ["src"]) ++ ["lib.rs"] =
        (root ++ ["programs", name]) ++ ["src", "lib.rs"] by simp]
    rw [hs3, lookupN_setN_ne _ _ _ _ (by simp), hs2, lookupN_setN_ne _ _ _ _ (by simp)]
    rw [hunch2 _ (by simp)]
    apply hsub
    rw [isPrefixB_iff]
    exact ⟨["src", "lib.rs"], rfl⟩
  have hw4 : ∀ c4 : String,
      writeT m4s ((root ++ ["programs", name]) ++ ["src", "lib.rs"]) (.text c4) =
        some (setN m4s ((root ++ ["programs", name]) ++ ["src", "lib.rs"]) (.file (.text c4))) := by
    intro c4
    apply writeT_eq
    · rw [he4none]; simp
    · right
      rw [show ((root ++ ["programs", name]) ++ ["src", "lib.rs"]).dropLast =
          (root ++ ["programs", name]) ++ ["src"] by simp]
      exact hsrcdir
  -- assemble the createFilesT run
  have hext2 : hasExt ((root ++ ["programs", name]) ++ ["Cargo.toml"]) = true := by
    rw [hasExt_append_single]
    decide
  have hext3 : hasExt ((root ++ ["programs", name]) ++ ["Xargo.toml"]) = true := by
    rw [hasExt_append_single]
    decide
  have hext4 : hasExt ((root ++ ["programs", name]) ++ ["src", "lib.rs"]) = true := by
    rw [show (root ++ ["programs", name]) ++ ["src", "lib.rs"] =
        ((root ++ ["programs", name]) ++ ["src"]) ++ ["lib.rs"] by simp]
    rw [hasExt_append_single]
    decide
  have hmk3id : createDirAllT s2 ((root ++ ["programs", name]) ++ ["Xargo.toml"]).dropLast =
      some (s2, []) := by
    rw [show ((root ++ ["programs", name]) ++ ["Xargo.toml"]).dropLast = root ++ ["programs", name] by simp]
    apply mkdir_all_dirs
    intro q hq hpre
    have := hdirs3 q hq hpre
    simpa using this
  have hcf : ∀ c4 : String, createFilesT
      [(root ++ ["Cargo.toml"], workspace_manifest),
       ((root ++ ["programs", name]) ++ ["Cargo.toml"], cargo_toml name t),
       ((root ++ ["programs", name]) ++ ["Xargo.toml"], xargo_toml),
       ((root ++ ["programs", name]) ++ ["src", "lib.rs"], c4)] s =
      some (setN m4s ((root ++ ["programs", name]) ++ ["src", "lib.rs"]) (.file (.text c4)),
        m2l ++ [(root ++ ["programs", name]) ++ ["Cargo.toml"]] ++
          ([] ++ [(root ++ ["programs", name]) ++ ["Xargo.toml"]] ++
            (m4l ++ [(root ++ ["programs", name]) ++ ["src", "lib.rs"]] ++ []))) := by
    intro c4
    rw [createFilesT_cons_skip _ _ _ _ he1]
    rw [createFilesT_cons_create _ _ _ _ m2s m2l s2 _ _
      (by rw [pathExistsN, he2none]; rfl) hext2
      (by rw [show ((root ++ ["programs", name]) ++ ["Cargo.toml"]).dropLast = root ++ ["programs", name] by simp]; exact hmk2)
      hw2 ?_]
    rw [createFilesT_cons_create _ _ _ _ s2 [] s3 _ _
      (by rw [pathExistsN, he3none]; rfl) hext3 hmk3id hw3 ?_]
    rw [createFilesT_cons_create _ _ _ _ m4s m4l _ _ _
      (by
        rw [pathExistsN]
        have : lookupN s3 ((root ++ ["programs", name]) ++ ["src", "lib.rs"]) = none := by
          rw [hs3, lookupN_setN_ne _ _ _ _ (by simp), hs2, lookupN_setN_ne _ _ _ _ (by simp)]
          rw [hunch2 _ (by simp)]
          apply hsub
          rw [isPrefixB_iff]
          exact ⟨["src", "lib.rs"], rfl⟩
        rw [this]
        rfl) hext4
      (by
        rw [show ((root ++ ["programs", name]) ++ ["src", "lib.rs"]).dropLast =
            (root ++ ["programs", name]) ++ ["src"] by simp]
        exact hmk4)
      (hw4 c4) (createFilesT_nil_eq _)]
  -- conclude per template variant
  cases t with
  | basic =>
    refine ⟨setN m4s ((root ++ ["programs", name]) ++ ["src", "lib.rs"])
        (.file (.text (basic_lib_rs k.pk (toSnakeCase name)))), ?_⟩
    simp only [create_program, create_program_template_basic, hg]
    simp only [List.cons_append, List.nil_append, List.singleton_append]
    rw [hcf (basic_lib_rs k.pk (toSnakeCase name))]
  | counter =>
    refine ⟨setN m4s ((root ++ ["programs", name]) ++ ["src", "lib.rs"])
        (.file (.text (counter_lib_rs k.pk (toSnakeCase name)))), ?_⟩
    simp only [create_program, create_program_template_counter, hg]
    simp only [List.cons_append, List.nil_append, List.singleton_append]
    rw [hcf (counter_lib_rs k.pk (toSnakeCase name))]
  | mintToken =>
    refine ⟨setN m4s ((root ++ ["programs", name]) ++ ["src", "lib.rs"])
        (.file (.text (mint_token_lib_rs k.pk (toSnakeCase name)))), ?_⟩
    simp only [create_program, create_program_template_mint_token, hg]
    simp only [List.cons_append, List.nil_append, List.singleton_append]
    rw [hcf (mint_token_lib_rs k.pk (toSnakeCase name))]

theorem initModel_noforce_inv (name : String) (javascript : Bool)
    (template : ProgramTemplate) (fresh : Keypair) (license testScript : String)
    (s0 s1 : FsState)
    (h : initModel name javascript template false fresh license testScript s0 = (s1, none)) :
    nameCheck (rustNameOf name) = none ∧
    pathExistsN s0 [projectNameOf name] = false ∧
    ∃ (pr1 pr2 : FsState × List FilePathM) (pid : String × FsState)
      (s4 s5 s6 s8 : FsState) (pr9 : FsState × List FilePathM) (s10 : FsState),
      createDirAllT s0 [projectNameOf name] = some pr1 ∧
      createDirAllT pr1.1 [projectNameOf name, "app"] = some pr2 ∧
      get_or_create_program_id [projectNameOf name] (rustNameOf name) fresh pr2.1 =
        some pid ∧
      writeT pid.2 [projectNameOf name, "Anchor.toml"]
        (.text (create_anchor_toml pid.1 testScript template)) = some s4 ∧
      writeT s4 [projectNameOf name, ".gitignore"] (.text git_ignore) = some s5 ∧
      writeT s5 [projectNameOf name, ".prettierignore"] (.text prettier_ignore) = some s6 ∧
      create_program [projectNameOf name] (projectNameOf name) template fresh s6 = some s8 ∧
      createDirAllT s8 [projectNameOf name, "migrations"] = some pr9 ∧
      ((javascript = true ∧ ∃ sa,
          writeT pr9.1 [projectNameOf name, "package.json"]
            (.text (package_json_js license)) = some sa ∧
          writeT sa [projectNameOf name, "migrations", "deploy.js"]
            (.text deploy_script_js) = some s10) ∨
       (javascript = false ∧ ∃ sa sb,
          writeT pr9.1 [projectNameOf name, "tsconfig.json"] (.text ts_config) = some sa ∧
          writeT sa [projectNameOf name, "package.json"]
            (.text (ts_package_json license template)) = some sb ∧
          writeT sb [projectNameOf name, "migrations", "deploy.ts"]
            (.text ts_deploy_script) = some s10)) ∧
      create_test_files [projectNameOf name] (projectNameOf name) template s10 = some s1 := by
  unfold initModel at h
  split at h
  · simp at h
  · rename_i hnc
    split at h
    · simp at h
    · rename_i hcond
      have hex : pathExistsN s0 [projectNameOf name] = false := by
        simpa using hcond
      split at h
      · simp at h
      · rename_i pr1 heq1
        split at h
        · simp at h
        · rename_i pr2 heq2
          split at h
          · simp at h
          · rename_i pid heqg
            split at h
            · simp at h
            · rename_i s4 heq4
              split at h
              · simp at h
              · rename_i s5 heq5
                split at h
                · simp at h
                · rename_i s6 heq6
                  split at h
                  · rename_i heq7
                    simp at heq7
                  · rename_i s7 heq7
                    have hs7 : s7 = s6 := by
                      simp at heq7
                      exact heq7.symm
                    subst hs7
                    split at h
                    · simp at h
                    · rename_i s8 hcp
                      split at h
                      · simp at h
                      · rename_i pr9 heq9
                        split at h
                        · simp at h
                        · rename_i s10 heqb
                          split at h
                          · simp at h
                          · rename_i s11 hctf
                            have hs11 : s11 = s1 := by
                              injection h with h1 h2
                            subst hs11
                            refine ⟨hnc, hex, pr1, pr2, pid, s4, s5, s7, s8, pr9, s10,
                              heq1, heq2, heqg, heq4, heq5, heq6, hcp, heq9, ?_, hctf⟩
                            by_cases hjs : javascript = true
                            · rw [if_pos hjs] at heqb
                              left
                              refine ⟨hjs, ?_⟩
                              split at heqb
                              · cases heqb
                              · rename_i sa heqa
                                exact ⟨sa, heqa, heqb⟩
                            · rw [if_neg hjs] at heqb
                              right
                              refine ⟨by simpa using hjs, ?_⟩
                              split at heqb
                              · cases heqb
                              · rename_i sa heqa
                                split at heqb
                                · cases heqb
                                · rename_i sb heqbb
                                  exact ⟨sa, sb, heqa, heqbb, heqb⟩

theorem initModel_force_from_populated (name : String) (javascript : Bool)
    (template : ProgramTemplate) (fresh2 : Keypair) (license2 testScript2 : String)
    (s1 : FsState)
    (hnc : nameCheck (rustNameOf name) = none)
    (dirP : lookupN s1 [projectNameOf name] = some .dir)
    (dirApp : lookupN s1 [projectNameOf name, "app"] = some .dir)
    (blobR : ∃ k, lookupN s1 (keypairPath [projectNameOf name] (rustNameOf name)) =
      some (.file (.blob k)))
    (blobP : ∃ k, lookupN s1 (keypairPath [projectNameOf name] (projectNameOf name)) =
      some (.file (.blob k)))
    (fileAnchor : ∃ d, lookupN s1 [projectNameOf name, "Anchor.toml"] = some (.file d))
    (fileGit : ∃ d, lookupN s1 [projectNameOf name, ".gitignore"] = some (.file d))
    (filePret : ∃ d, lookupN s1 [projectNameOf name, ".prettierignore"] = some (.file d))
    (dirProgs : lookupN s1 [projectNameOf name, "programs"] = some .dir)
    (dirProgP : lookupN s1 [projectNameOf name, "programs", projectNameOf name] = some .dir)
    (exCargo : pathExistsN s1 [projectNameOf name, "Cargo.toml"] = true)
    (dirMigr : lookupN s1 [projectNameOf name, "migrations"] = some .dir)
    (hbranch : (javascript = true ∧
        (∃ d, lookupN s1 [projectNameOf name, "package.json"] = some (.file d)) ∧
        (∃ d, lookupN s1 [projectNameOf name, "migrations", "deploy.js"] = some (.file d))) ∨
      (javascript = false ∧
        (∃ d, lookupN s1 [projectNameOf name, "tsconfig.json"] = some (.file d)) ∧
        (∃ d, lookupN s1 [projectNameOf name, "package.json"] = some (.file d)) ∧
        (∃ d, lookupN s1 [projectNameOf name, "migrations", "deploy.ts"] = some (.file d))))
    (dirTests : lookupN s1 [projectNameOf name, "tests"] = some .dir)
    (fileTest : ∃ d, lookupN s1
      [projectNameOf name, "tests", projectNameOf name ++ ".ts"] = some (.file d)) :
    ∃ s2, initModel name javascript template true fresh2 license2 testScript2 s1 =
        (s2, none) ∧
      ∀ p, pathExistsN s1 p = true →
        isPrefixB [projectNameOf name, "programs", projectNameOf name] p = false →
        pathExistsN s2 p = true := by
  obtain ⟨k1, hk1⟩ := blobR
  obtain ⟨k2, hk2⟩ := blobP
  -- step 1 and 2: the root and app directories already exist
  have hmk1 : createDirAllT s1 [projectNameOf name] = some (s1, []) := by
    apply mkdir_all_dirs
    intro q hq hpre
    rcases prefix_of_append_one [] (projectNameOf name) q (by simpa using hpre) with h1 | h1
    · cases q with
      | nil => exact absurd rfl hq
      | cons a as => simp [isPrefixB] at h1
    · rw [show ([] : FilePathM) ++ q = q by simp, h1]
      simpa using dirP
  have hmk2 : createDirAllT s1 [projectNameOf name, "app"] = some (s1, []) := by
    apply mkdir_all_dirs
    intro q hq hpre
    rcases prefix_of_append_two [] (projectNameOf name) "app" q (by simpa using hpre)
      with h1 | h1 | h1
    · cases q with
      | nil => exact absurd rfl hq
      | cons a as => simp [isPrefixB] at h1
    · rw [show ([] : FilePathM) ++ q = q by simp, h1]
      simpa using dirP
    · rw [show ([] : FilePathM) ++ q = q by simp, h1]
      simpa using dirApp
  -- step 3: the keypair is cached, the filesystem is untouched
  have hg2 : get_or_create_program_id [projectNameOf name] (rustNameOf name) fresh2 s1 =
      some (k1.pk, s1) := gocpi_cached _ _ _ _ k1 hk1
  -- steps 4-6: overwrite the three root config files
  have hw3 : writeT s1 [projectNameOf name, "Anchor.toml"]
      (.text (create_anchor_toml k1.pk testScript2 template)) =
      some (setN s1 [projectNameOf name, "Anchor.toml"]
        (.file (.text (create_anchor_toml k1.pk testScript2 template)))) := by
    apply writeT_eq
    · obtain ⟨d, hd⟩ := fileAnchor
      rw [hd]
      simp
    · exact Or.inr (by simpa using dirP)
  have dirP3 := writeT_dir_kind _ _ _ _ hw3 _ dirP
  have hw4 : writeT (setN s1 [projectNameOf name, "Anchor.toml"]
        (.file (.text (create_anchor_toml k1.pk testScript2 template))))
      [projectNameOf name, ".gitignore"] (.text git_ignore) =
      some (setN (setN s1 [projectNameOf name, "Anchor.toml"]
          (.file (.text (create_anchor_toml k1.pk testScript2 template))))
        [projectNameOf name, ".gitignore"] (.file (.text git_ignore))) := by
    apply writeT_eq
    · obtain ⟨d, hd⟩ := writeT_file_kind _ _ _ _ hw3 _ fileGit
      rw [hd]
      simp
    · exact Or.inr (by simpa using dirP3)
  have dirP4 := writeT_dir_kind _ _ _ _ hw4 _ dirP3
  have hw5 : writeT (setN (setN s1 [projectNameOf name, "Anchor.toml"]
          (.file (.text (create_anchor_toml k1.pk testScript2 template))))
        [projectNameOf name, ".gitignore"] (.file (.text git_ignore)))
      [projectNameOf name, ".prettierignore"] (.text prettier_ignore) =
      some (setN (setN (setN s1 [projectNameOf name, "Anchor.toml"]
            (.file (.text (create_anchor_toml k1.pk testScript2 template))))
          [projectNameOf name, ".gitignore"] (.file (.text git_ignore)))
        [projectNameOf name, ".prettierignore"] (.file (.text prettier_ignore))) := by
    apply writeT_eq
    · obtain ⟨d, hd⟩ := writeT_file_kind _ _ _ _ hw4 _ (writeT_file_kind _ _ _ _ hw3 _ filePret)
      rw [hd]
      simp
    · exact Or.inr (by simpa using dirP4)
  have dirP5 := writeT_dir_kind _ _ _ _ hw5 _ dirP4
  set t5 := setN (setN (setN s1 [projectNameOf name, "Anchor.toml"]
        (.file (.text (create_anchor_toml k1.pk testScript2 template))))
      [projectNameOf name, ".gitignore"] (.file (.text git_ignore)))
    [projectNameOf name, ".prettierignore"] (.file (.text prettier_ignore)) with ht5
  have dirProgs5 : lookupN t5 [projectNameOf name, "programs"] = some .dir :=
    writeT_dir_kind _ _ _ _ hw5 _ (writeT_dir_kind _ _ _ _ hw4 _
      (writeT_dir_kind _ _ _ _ hw3 _ dirProgs))
  have dirProgP5 : lookupN t5 [projectNameOf name, "programs", projectNameOf name] =
      some .dir :=
    writeT_dir_kind _ _ _ _ hw5 _ (writeT_dir_kind _ _ _ _ hw4 _
      (writeT_dir_kind _ _ _ _ hw3 _ dirProgP))
  have dirMigr5 : lookupN t5 [projectNameOf name, "migrations"] = some .dir :=
    writeT_dir_kind _ _ _ _ hw5 _ (writeT_dir_kind _ _ _ _ hw4 _
      (writeT_dir_kind _ _ _ _ hw3 _ dirMigr))
  have dirTests5 : lookupN t5 [projectNameOf name, "tests"] = some .dir :=
    writeT_dir_kind _ _ _ _ hw5 _ (writeT_dir_kind _ _ _ _ hw4 _
      (writeT_dir_kind _ _ _ _ hw3 _ dirTests))
  have exCargo5 : pathExistsN t5 [projectNameOf name, "Cargo.toml"] = true :=
    writeT_exists _ _ _ _ hw5 _ (writeT_exists _ _ _ _ hw4 _
      (writeT_exists _ _ _ _ hw3 _ exCargo))
  have blobP5 : lookupN t5 (keypairPath [projectNameOf name] (projectNameOf name)) =
      some (.file (.blob k2)) := by
    rw [writeT_preserve_ne _ _ _ _ hw5 _ (by simp [keypairPath]),
      writeT_preserve_ne _ _ _ _ hw4 _ (by simp [keypairPath]),
      writeT_preserve_ne _ _ _ _ hw3 _ (by simp [keypairPath])]
    exact hk2
  have fileTest5 : ∃ d, lookupN t5
      [projectNameOf name, "tests", projectNameOf name ++ ".ts"] = some (.file d) :=
    writeT_file_kind _ _ _ _ hw5 _ (writeT_file_kind _ _ _ _ hw4 _
      (writeT_file_kind _ _ _ _ hw3 _ fileTest))
  -- step 7: remove the program subtree
  have hrem : removeDirAllT t5 [projectNameOf name, "programs", projectNameOf name] =
      some (t5.filter (fun e =>
        !(isPrefixB [projectNameOf name, "programs", projectNameOf name] e.1))) :=
    removeDirAllT_eq t5 _ dirProgP5
  set t6 := t5.filter (fun e =>
    !(isPrefixB [projectNameOf name, "programs", projectNameOf name] e.1)) with ht6
  have dirP6 : lookupN t6 [projectNameOf name] = some .dir := by
    rw [ht6, lookupN_removeSub_out _ _ _ (by simp [isPrefixB])]
    exact dirP5
  have dirProgs6 : lookupN t6 [projectNameOf name, "programs"] = some .dir := by
    rw [ht6, lookupN_removeSub_out _ _ _ (by simp [isPrefixB])]
    exact dirProgs5
  have exCargo6 : pathExistsN t6 [projectNameOf name, "Cargo.toml"] = true := by
    rw [pathExistsN, ht6, lookupN_removeSub_out _ _ _ (by simp [isPrefixB])]
    rw [pathExistsN] at exCargo5
    exact exCargo5
  have blobP6 : lookupN t6 (keypairPath [projectNameOf name] (projectNameOf name)) =
      some (.file (.blob k2)) := by
    rw [ht6, lookupN_removeSub_out _ _ _ (by simp [keypairPath, isPrefixB])]
    exact blobP5
  have dirMigr6 : lookupN t6 [projectNameOf name, "migrations"] = some .dir := by
    rw [ht6, lookupN_removeSub_out _ _ _ (by simp [isPrefixB])]
    exact dirMigr5
  have dirTests6 : lookupN t6 [projectNameOf name, "tests"] = some .dir := by
    rw [ht6, lookupN_removeSub_out _ _ _ (by simp [isPrefixB])]
    exact dirTests5
  have fileTest6 : ∃ d, lookupN t6
      [projectNameOf name, "tests", projectNameOf name ++ ".ts"] = some (.file d) := by
    rw [ht6, lookupN_removeSub_out _ _ _ (by simp [isPrefixB])]
    exact fileTest5
  -- step 8: rebuild the program
  obtain ⟨s8, hcp2⟩ := create_program_files_ok [projectNameOf name] (projectNameOf name)
    template fresh2 t6 k2 blobP6
    (by
      intro q hq hpre
      rcases prefix_of_append_one [] (projectNameOf name) q (by simpa using hpre) with h1 | h1
      · cases q with
        | nil => exact absurd rfl hq
        | cons a as => simp [isPrefixB] at h1
      · rw [h1]
        simpa using dirP6)
    (by simpa using dirProgs6)
    (by simpa using exCargo6)
    (by
      intro r hr
      rw [ht6]
      exact lookupN_removeSub_in t5 _ r (by simpa using hr))
  have dirP8 := create_program_dir_kind _ _ _ _ _ _ hcp2 _ dirP6
  have dirMigr8 := create_program_dir_kind _ _ _ _ _ _ hcp2 _ dirMigr6
  have dirTests8 := create_program_dir_kind _ _ _ _ _ _ hcp2 _ dirTests6
  have fileTest8 := create_program_file_kind _ _ _ _ _ _ hcp2 _ fileTest6
  -- step 9: the migrations directory already exists
  have hmig : createDirAllT s8 [projectNameOf name, "migrations"] = some (s8, []) := by
    apply mkdir_all_dirs
    intro q hq hpre
    rcases prefix_of_append_two [] (projectNameOf name) "migrations" q (by simpa using hpre)
      with h1 | h1 | h1
    · cases q with
      | nil => exact absurd rfl hq
      | cons a as => simp [isPrefixB] at h1
    · rw [show ([] : FilePathM) ++ q = q by simp, h1]
      simpa using dirP8
    · rw [show ([] : FilePathM) ++ q = q by simp, h1]
      simpa using dirMigr8
  -- helpers for the final test-file step, shared by both branches
  have hfinish : ∀ tb : FsState, lookupN tb [projectNameOf name] = some .dir →
      lookupN tb [projectNameOf name, "tests"] = some .dir →
      (∃ d, lookupN tb [projectNameOf name, "tests", projectNameOf name ++ ".ts"] =
        some (.file d)) →
      create_test_files [projectNameOf name] (projectNameOf name) template tb =
        some (setN tb [projectNameOf name, "tests", projectNameOf name ++ ".ts"]
          (.file (.text (ts_mocha (projectNameOf name) template)))) := by
    intro tb hdirP hdirT hfile
    have hmkt : createDirAllT tb ([projectNameOf name] ++ ["tests"]) = some (tb, []) := by
      apply mkdir_all_dirs
      intro q hq hpre
      rcases prefix_of_append_one [projectNameOf name] "tests" q hpre with h1 | h1
      · rcases prefix_of_append_one [] (projectNameOf name) q (by simpa using h1) with h2 | h2
        · cases q with
          | nil => exact absurd rfl hq
          | cons a as => simp [isPrefixB] at h2
        · rw [show ([] : FilePathM) ++ q = q by simp, h2]
          simpa using hdirP
      · rw [show ([] : FilePathM) ++ q = q by simp, h1]
        simpa using hdirT
    have hwt : writeT tb ([projectNameOf name] ++ ["tests", projectNameOf name ++ ".ts"])
        (.text (ts_mocha (projectNameOf name) template)) =
        some (setN tb [projectNameOf name, "tests", projectNameOf name ++ ".ts"]
          (.file (.text (ts_mocha (projectNameOf name) template)))) := by
      apply writeT_eq
      · obtain ⟨d, hd⟩ := hfile
        rw [show ([projectNameOf name] : FilePathM) ++ ["tests", projectNameOf name ++ ".ts"] =
          [projectNameOf name, "tests", projectNameOf name ++ ".ts"] by simp, hd]
        simp
      · right
        rw [show (([projectNameOf name] : FilePathM) ++
            ["tests", projectNameOf name ++ ".ts"]).dropLast =
          [projectNameOf name, "tests"] by simp]
        exact hdirT
    rw [create_test_files, hmkt]
    rw [show (([projectNameOf name] : FilePathM) ++ ["tests", projectNameOf name ++ ".ts"]) =
      [projectNameOf name, "tests", projectNameOf name ++ ".ts"] by simp] at hwt
    exact hwt
  rcases hbranch with ⟨hjs, filePkg, fileDep⟩ | ⟨hjs, fileTsc, filePkg, fileDep⟩
  · -- JavaScript flavor
    subst hjs
    have filePkg6 : ∃ d, lookupN t6 [projectNameOf name, "package.json"] =
        some (.file d) := by
      rw [ht6, lookupN_removeSub_out _ _ _ (by simp [isPrefixB])]
      exact writeT_file_kind _ _ _ _ hw5 _ (writeT_file_kind _ _ _ _ hw4 _
        (writeT_file_kind _ _ _ _ hw3 _ filePkg))
    have fileDep6 : ∃ d, lookupN t6 [projectNameOf name, "migrations", "deploy.js"] =
        some (.file d) := by
      rw [ht6, lookupN_removeSub_out _ _ _ (by simp [isPrefixB])]
      exact writeT_file_kind _ _ _ _ hw5 _ (writeT_file_kind _ _ _ _ hw4 _
        (writeT_file_kind _ _ _ _ hw3 _ fileDep))
    have filePkg8 := create_program_file_kind _ _ _ _ _ _ hcp2 _ filePkg6
    have fileDep8 := create_program_file_kind _ _ _ _ _ _ hcp2 _ fileDep6
    have hwa : writeT s8 [projectNameOf name, "package.json"]
        (.text (package_json_js license2)) =
        some (setN s8 [projectNameOf name, "package.json"]
          (.file (.text (package_json_js license2)))) := by
      apply writeT_eq
      · obtain ⟨d, hd⟩ := filePkg8
        rw [hd]
        simp
      · exact Or.inr (by simpa using dirP8)
    have hwb : writeT (setN s8 [projectNameOf name, "package.json"]
          (.file (.text (package_json_js license2))))
        [projectNameOf name, "migrations", "deploy.js"] (.text deploy_script_js) =
        some (setN (setN s8 [projectNameOf name, "package.json"]
            (.file (.text (package_json_js license2))))
          [projectNameOf name, "migrations", "deploy.js"]
          (.file (.text deploy_script_js))) := by
      apply writeT_eq
      · obtain ⟨d, hd⟩ := writeT_file_kind _ _ _ _ hwa _ fileDep8
        rw [hd]
        simp
      · exact Or.inr (by simpa using writeT_dir_kind _ _ _ _ hwa _ dirMigr8)
    set tb := setN (setN s8 [projectNameOf name, "package.json"]
        (.file (.text (package_json_js license2))))
      [projectNameOf name, "migrations", "deploy.js"] (.file (.text deploy_script_js))
      with htb
    have hctf2 := hfinish tb
      (writeT_dir_kind _ _ _ _ hwb _ (writeT_dir_kind _ _ _ _ hwa _ dirP8))
      (writeT_dir_kind _ _ _ _ hwb _ (writeT_dir_kind _ _ _ _ hwa _ dirTests8))
      (writeT_file_kind _ _ _ _ hwb _ (writeT_file_kind _ _ _ _ hwa _ fileTest8))
    refine ⟨setN tb [projectNameOf name, "tests", projectNameOf name ++ ".ts"]
      (.file (.text (ts_mocha (projectNameOf name) template))), ?_, ?_⟩
    · unfold initModel
      simp only [hnc, Bool.not_true, Bool.false_and, if_false, hmk1, hmk2, hg2, hw3, hw4,
        hw5, if_true, hrem, ← ht6, hcp2, hmig, hwa, hwb, ← htb, hctf2]
      simp [hctf2]
    · intro p hp hnp
      have h5 : pathExistsN t5 p = true :=
        writeT_exists _ _ _ _ hw5 _ (writeT_exists _ _ _ _ hw4 _
          (writeT_exists _ _ _ _ hw3 _ hp))
      have h6 : pathExistsN t6 p = true := by
        rw [pathExistsN, ht6, lookupN_removeSub_out _ _ _ hnp]
        rw [pathExistsN] at h5
        exact h5
      have h8 := create_program_exists _ _ _ _ _ _ hcp2 _ h6
      have hb := writeT_exists _ _ _ _ hwb _ (writeT_exists _ _ _ _ hwa _ h8)
      exact create_test_files_exists _ _ _ _ _ hctf2 _ hb
  · -- TypeScript flavor
    subst hjs
    have fileTsc6 : ∃ d, lookupN t6 [projectNameOf name, "tsconfig.json"] =
        some (.file d) := by
      rw [ht6, lookupN_removeSub_out _ _ _ (by simp [isPrefixB])]
      exact writeT_file_kind _ _ _ _ hw5 _ (writeT_file_kind _ _ _ _ hw4 _
        (writeT_file_kind _ _ _ _ hw3 _ fileTsc))
    have filePkg6 : ∃ d, lookupN t6 [projectNameOf name, "package.json"] =
        some (.file d) := by
      rw [ht6, lookupN_removeSub_out _ _ _ (by simp [isPrefixB])]
      exact writeT_file_kind _ _ _ _ hw5 _ (writeT_file_kind _ _ _ _ hw4 _
        (writeT_file_kind _ _ _ _ hw3 _ filePkg))
    have fileDep6 : ∃ d, lookupN t6 [projectNameOf name, "migrations", "deploy.ts"] =
        some (.file d) := by
      rw [ht6, lookupN_removeSub_out _ _ _ (by simp [isPrefixB])]
      exact writeT_file_kind _ _ _ _ hw5 _ (writeT_file_kind _ _ _ _ hw4 _
        (writeT_file_kind _ _ _ _ hw3 _ fileDep))
    have fileTsc8 := create_program_file_kind _ _ _ _ _ _ hcp2 _ fileTsc6
    have filePkg8 := create_program_file_kind _ _ _ _ _ _ hcp2 _ filePkg6
    have fileDep8 := create_program_file_kind _ _ _ _ _ _ hcp2 _ fileDep6
    have hwa : writeT s8 [projectNameOf name, "tsconfig.json"] (.text ts_config) =
        some (setN s8 [projectNameOf name, "tsconfig.json"] (.file (.text ts_config))) := by
      apply writeT_eq
      · obtain ⟨d, hd⟩ := fileTsc8
        rw [hd]
        simp
      · exact Or.inr (by simpa using dirP8)
    have hwb : writeT (setN s8 [projectNameOf name, "tsconfig.json"]
          (.file (.text ts_config)))
        [projectNameOf name, "package.json"] (.text (ts_package_json license2 template)) =
        some (setN (setN s8 [projectNameOf name, "tsconfig.json"]
            (.file (.text ts_config)))
          [projectNameOf name, "package.json"]
          (.file (.text (ts_package_json license2 template)))) := by
      apply writeT_eq
      · obtain ⟨d, hd⟩ := writeT_file_kind _ _ _ _ hwa _ filePkg8
        rw [hd]
        simp
      · exact Or.inr (by simpa using writeT_dir_kind _ _ _ _ hwa _ dirP8)
    have hwc : writeT (setN (setN s8 [projectNameOf name, "tsconfig.json"]
            (.file (.text ts_config)))
          [projectNameOf name, "package.json"]
          (.file (.text (ts_package_json license2 template))))
        [projectNameOf name, "migrations", "deploy.ts"] (.text ts_deploy_script) =
        some (setN (setN (setN s8 [projectNameOf name, "tsconfig.json"]
              (.file (.text ts_config)))
            [projectNameOf name, "package.json"]
            (.file (.text (ts_package_json license2 template))))
          [projectNameOf name, "migrations", "deploy.ts"]
          (.file (.text ts_deploy_script))) := by
      apply writeT_eq
      · obtain ⟨d, hd⟩ := writeT_file_kind _ _ _ _ hwb _
          (writeT_file_kind _ _ _ _ hwa _ fileDep8)
        rw [hd]
        simp
      · have hm2 := writeT_dir_kind _ _ _ _ hwb _ (writeT_dir_kind _ _ _ _ hwa _ dirMigr8)
        exact Or.inr (by simpa using hm2)
    set tb := setN (setN (setN s8 [projectNameOf name, "tsconfig.json"]
          (.file (.text ts_config)))
        [projectNameOf name, "package.json"]
        (.file (.text (ts_package_json license2 template))))
      [projectNameOf name, "migrations", "deploy.ts"] (.file (.text ts_deploy_script))
      with htb
    have hctf2 := hfinish tb
      (writeT_dir_kind _ _ _ _ hwc _ (writeT_dir_kind _ _ _ _ hwb _
        (writeT_dir_kind _ _ _ _ hwa _ dirP8)))
      (writeT_dir_kind _ _ _ _ hwc _ (writeT_dir_kind _ _ _ _ hwb _
        (writeT_dir_kind _ _ _ _ hwa _ dirTests8)))
      (writeT_file_kind _ _ _ _ hwc _ (writeT_file_kind _ _ _ _ hwb _
        (writeT_file_kind _ _ _ _ hwa _ fileTest8)))
    refine ⟨setN tb [projectNameOf name, "tests", projectNameOf name ++ ".ts"]
      (.file (.text (ts_mocha (projectNameOf name) template))), ?_, ?_⟩
    · unfold initModel
      simp only [hnc, Bool.not_true, Bool.false_and, if_false, hmk1, hmk2, hg2, hw3, hw4,
        hw5, if_true, hrem, ← ht6, hcp2, hmig, hwa, hwb, hwc, ← htb, hctf2]
      simp [hctf2]
    · intro p hp hnp
      have h5 : pathExistsN t5 p = true :=
        writeT_exists _ _ _ _ hw5 _ (writeT_exists _ _ _ _ hw4 _
          (writeT_exists _ _ _ _ hw3 _ hp))
      have h6 : pathExistsN t6 p = true := by
        rw [pathExistsN, ht6, lookupN_removeSub_out _ _ _ hnp]
        rw [pathExistsN] at h5
        exact h5
      have h8 := create_program_exists _ _ _ _ _ _ hcp2 _ h6
      have hb := writeT_exists _ _ _ _ hwc _ (writeT_exists _ _ _ _ hwb _
        (writeT_exists _ _ _ _ hwa _ h8))
      exact create_test_files_exists _ _ _ _ _ hctf2 _ hb

/-- Claim C8: workspace-root creation on a rerun (src/lib.rs lines 109-113 and
128-135).  If `init` ran to success once from a well-formed filesystem, then
running it again over the resulting state without `force` fails with the
workspace-exists error (`fs::create_dir` on the existing root) and leaves the
filesystem untouched, while running it again with `force` succeeds —
`create_dir_all` reuses the existing root — and every pre-existing path
outside the replaced `programs/<project_name>` subtree still exists
afterwards. -/
theorem init_rerun (name : String) (javascript : Bool) (template : ProgramTemplate)
    (fresh fresh2 : Keypair) (license testScript license2 testScript2 : String)
    (s0 s1 : FsState) (hwf : WFState s0)
    (h1 : initModel name javascript template false fresh license testScript s0 = (s1, none)) :
    initModel name javascript template false fresh2 license2 testScript2 s1 =
      (s1, some .workspaceExists) ∧
    ∃ s2, initModel name javascript template true fresh2 license2 testScript2 s1 =
        (s2, none) ∧
      ∀ p, pathExistsN s1 p = true →
        isPrefixB [projectNameOf name, "programs", projectNameOf name] p = false →
        pathExistsN s2 p = true := by
  obtain ⟨hnc, hex0, pr1, pr2, pid, s4, s5, s6, s8, pr9, s10,
    heq1, heq2, heqg, heq4, heq5, heq6, hcp, heq9, hbr, hctf⟩ :=
    initModel_noforce_inv name javascript template fresh license testScript s0 s1 h1
  -- well-formedness along run 1
  have hwfa : WFState pr1.1 :=
    wf_mkdirFrom _ s0 [] pr1.1 pr1.2 hwf (Or.inl rfl) heq1
  have hwfb : WFState pr2.1 :=
    wf_mkdirFrom _ pr1.1 [] pr2.1 pr2.2 hwfa (Or.inl rfl) heq2
  have hwfg : WFState pid.2 := gocpi_wf _ _ _ _ _ _ heqg hwfb
  have hwf4 : WFState s4 := wf_writeT _ _ _ _ hwfg heq4
  have hwf5 : WFState s5 := wf_writeT _ _ _ _ hwf4 heq5
  have hwf6 : WFState s6 := wf_writeT _ _ _ _ hwf5 heq6
  have hwf8 : WFState s8 := create_program_wf _ _ _ _ _ _ hcp hwf6
  have hwf9 : WFState pr9.1 :=
    wf_mkdirFrom _ s8 [] pr9.1 pr9.2 hwf8 (Or.inl rfl) heq9
  -- the javascript/typescript step, digested into transport facts to s10
  have hstep10 : WFState s10 ∧
      (∀ r, lookupN pr9.1 r = some .dir → lookupN s10 r = some .dir) ∧
      (∀ r, (∃ d, lookupN pr9.1 r = some (.file d)) →
        ∃ d, lookupN s10 r = some (.file d)) ∧
      (∀ r, pathExistsN pr9.1 r = true → pathExistsN s10 r = true) ∧
      (∀ nm k, lookupN pr9.1 (keypairPath [projectNameOf name] nm) =
          some (.file (.blob k)) →
        lookupN s10 (keypairPath [projectNameOf name] nm) = some (.file (.blob k))) ∧
      ((javascript = true ∧
          (∃ d, lookupN s10 [projectNameOf name, "package.json"] = some (.file d)) ∧
          (∃ d, lookupN s10 [projectNameOf name, "migrations", "deploy.js"] =
            some (.file d))) ∨
        (javascript = false ∧
          (∃ d, lookupN s10 [projectNameOf name, "tsconfig.json"] = some (.file d)) ∧
          (∃ d, lookupN s10 [projectNameOf name, "package.json"] = some (.file d)) ∧
          (∃ d, lookupN s10 [projectNameOf name, "migrations", "deploy.ts"] =
            some (.file d)))) := by
    rcases hbr with ⟨hjs, sa, hwa1, hwb1⟩ | ⟨hjs, sa, sb, hwa1, hwb1, hwc1⟩
    · obtain ⟨hsa, _, _⟩ := writeT_some _ _ _ _ hwa1
      refine ⟨wf_writeT _ _ _ _ (wf_writeT _ _ _ _ hwf9 hwa1) hwb1,
        fun r hr => writeT_dir_kind _ _ _ _ hwb1 r (writeT_dir_kind _ _ _ _ hwa1 r hr),
        fun r hr => writeT_file_kind _ _ _ _ hwb1 r (writeT_file_kind _ _ _ _ hwa1 r hr),
        fun r hr => writeT_exists _ _ _ _ hwb1 r (writeT_exists _ _ _ _ hwa1 r hr),
        fun nm k hk => by
          rw [writeT_preserve_ne _ _ _ _ hwb1 _ (by simp [keypairPath]),
            writeT_preserve_ne _ _ _ _ hwa1 _ (by simp [keypairPath])]
          exact hk,
        Or.inl ⟨hjs, ?_, ?_⟩⟩
      · refine writeT_file_kind _ _ _ _ hwb1 _ ⟨.text (package_json_js license), ?_⟩
        rw [hsa, lookupN_setN_self]
      · obtain ⟨hsb, _, _⟩ := writeT_some _ _ _ _ hwb1
        refine ⟨.text deploy_script_js, ?_⟩
        rw [hsb, lookupN_setN_self]
    · obtain ⟨hsa, _, _⟩ := writeT_some _ _ _ _ hwa1
      obtain ⟨hsb, _, _⟩ := writeT_some _ _ _ _ hwb1
      refine ⟨wf_writeT _ _ _ _ (wf_writeT _ _ _ _ (wf_writeT _ _ _ _ hwf9 hwa1) hwb1) hwc1,
        fun r hr => writeT_dir_kind _ _ _ _ hwc1 r (writeT_dir_kind _ _ _ _ hwb1 r
          (writeT_dir_kind _ _ _ _ hwa1 r hr)),
        fun r hr => writeT_file_kind _ _ _ _ hwc1 r (writeT_file_kind _ _ _ _ hwb1 r
          (writeT_file_kind _ _ _ _ hwa1 r hr)),
        fun r hr => writeT_exists _ _ _ _ hwc1 r (writeT_exists _ _ _ _ hwb1 r
          (writeT_exists _ _ _ _ hwa1 r hr)),
        fun nm k hk => by
          rw [writeT_preserve_ne _ _ _ _ hwc1 _ (by simp [keypairPath]),
            writeT_preserve_ne _ _ _ _ hwb1 _ (by simp [keypairPath]),
            writeT_preserve_ne _ _ _ _ hwa1 _ (by simp [keypairPath])]
          exact hk,
        Or.inr ⟨hjs, ?_, ?_, ?_⟩⟩
      · refine writeT_file_kind _ _ _ _ hwc1 _ (writeT_file_kind _ _ _ _ hwb1 _
          ⟨.text ts_config, ?_⟩)
        rw [hsa, lookupN_setN_self]
      · refine writeT_file_kind _ _ _ _ hwc1 _ ⟨.text (ts_package_json license template), ?_⟩
        rw [hsb, lookupN_setN_self]
      · obtain ⟨hsc, _, _⟩ := writeT_some _ _ _ _ hwc1
        refine ⟨.text ts_deploy_script, ?_⟩
        rw [hsc, lookupN_setN_self]
  obtain ⟨hwf10, push10_dir, push10_file, push10_ex, push10_blob, hbranch10⟩ := hstep10
  have hwf1 : WFState s1 := create_test_files_wf _ _ _ _ _ hctf hwf10
  -- directory facts transported to s1
  have pushd_b : ∀ r, lookupN pr2.1 r = some .dir → lookupN s1 r = some .dir := by
    intro r hr
    refine create_test_files_dir_kind _ _ _ _ _ hctf r (push10_dir r ?_)
    exact mkdirFrom_preserve _ _ _ _ _ heq9 r _ (create_program_dir_kind _ _ _ _ _ _ hcp r
      (writeT_dir_kind _ _ _ _ heq6 r (writeT_dir_kind _ _ _ _ heq5 r
        (writeT_dir_kind _ _ _ _ heq4 r (gocpi_dir_kind _ _ _ _ _ _ heqg r hr)))))
  have dirP1 : lookupN s1 [projectNameOf name] = some .dir := by
    apply pushd_b
    have := mkdirFrom_post _ pr1.1 [] pr2.1 pr2.2 heq2 [projectNameOf name]
      (by simp) (by simp [isPrefixB])
    have h2 := mkdirFrom_preserve _ pr1.1 [] pr2.1 pr2.2 heq2
    simpa using this
  have dirApp1 : lookupN s1 [projectNameOf name, "app"] = some .dir := by
    apply pushd_b
    have := mkdirFrom_post _ pr1.1 [] pr2.1 pr2.2 heq2 [projectNameOf name, "app"]
      (by simp) (isPrefixB_refl _)
    simpa using this
  -- the rust-name keypair blob
  have blobR1 : ∃ k, lookupN s1
      (keypairPath [projectNameOf name] (rustNameOf name)) = some (.file (.blob k)) := by
    obtain ⟨kR, hkR, _⟩ := gocpi_blob _ _ _ _ _ _ heqg
    refine ⟨kR, create_test_files_blob_kind _ _ _ _ _ hctf _ kR
      (push10_blob _ kR ?_) (by simp [keypairPath])⟩
    refine mkdirFrom_preserve _ _ _ _ _ heq9 _ _ (create_program_blob_kind _ _ _ _ _ _ hcp _ kR ?_)
    rw [writeT_preserve_ne _ _ _ _ heq6 _ (by simp [keypairPath]),
      writeT_preserve_ne _ _ _ _ heq5 _ (by simp [keypairPath]),
      writeT_preserve_ne _ _ _ _ heq4 _ (by simp [keypairPath])]
    exact hkR
  -- run 1's create_program step, inverted
  obtain ⟨pid2, smid, l2, entries, hg1i, hcf1i, hent⟩ :=
    create_program_inv _ _ _ _ _ _ hcp
  -- the project-name keypair blob
  have blobP1 : ∃ k, lookupN s1
      (keypairPath [projectNameOf name] (projectNameOf name)) = some (.file (.blob k)) := by
    obtain ⟨kP, hkP, _⟩ := gocpi_blob _ _ _ _ _ _ hg1i
    refine ⟨kP, create_test_files_blob_kind _ _ _ _ _ hctf _ kP
      (push10_blob _ kP ?_) (by simp [keypairPath])⟩
    exact mkdirFrom_preserve _ _ _ _ _ heq9 _ _
      (createFilesT_preserve _ _ _ _ hcf1i _ _ hkP)
  -- the three root config files
  have pushf6 : ∀ r, (∃ d, lookupN s6 r = some (.file d)) →
      ∃ d, lookupN s1 r = some (.file d) := by
    intro r hr
    refine create_test_files_file_kind _ _ _ _ _ hctf r (push10_file r ?_)
    obtain ⟨d, hd⟩ := create_program_file_kind _ _ _ _ _ _ hcp r hr
    exact ⟨d, mkdirFrom_preserve _ _ _ _ _ heq9 r _ hd⟩
  have fileAnchor1 : ∃ d, lookupN s1 [projectNameOf name, "Anchor.toml"] =
      some (.file d) := by
    apply pushf6
    refine writeT_file_kind _ _ _ _ heq6 _ (writeT_file_kind _ _ _ _ heq5 _
      ⟨.text (create_anchor_toml pid.1 testScript template), ?_⟩)
    obtain ⟨h4, _, _⟩ := writeT_some _ _ _ _ heq4
    rw [h4, lookupN_setN_self]
  have fileGit1 : ∃ d, lookupN s1 [projectNameOf name, ".gitignore"] =
      some (.file d) := by
    apply pushf6
    refine writeT_file_kind _ _ _ _ heq6 _ ⟨.text git_ignore, ?_⟩
    obtain ⟨h5, _, _⟩ := writeT_some _ _ _ _ heq5
    rw [h5, lookupN_setN_self]
  have filePret1 : ∃ d, lookupN s1 [projectNameOf name, ".prettierignore"] =
      some (.file d) := by
    apply pushf6
    obtain ⟨h6, _, _⟩ := writeT_some _ _ _ _ heq6
    exact ⟨.text prettier_ignore, by rw [h6, lookupN_setN_self]⟩
  -- existence of the two workspace manifests, hence the program directories
  have pushex8 : ∀ r, pathExistsN s8 r = true → pathExistsN s1 r = true := by
    intro r hr
    exact create_test_files_exists _ _ _ _ _ hctf r (push10_ex r
      (mkdirFrom_exists _ _ _ _ _ heq9 r hr))
  have exCargo1 : pathExistsN s1 ([projectNameOf name] ++ ["Cargo.toml"]) = true := by
    apply pushex8
    rcases createFilesT_post entries smid s8 l2 hcf1i ([projectNameOf name] ++ ["Cargo.toml"])
      workspace_manifest (by rw [hent]; exact List.mem_cons_self _ _) with h | h
    · exact h
    · simp at h
  have exPC1 : pathExistsN s1
      ([projectNameOf name] ++ ["programs", projectNameOf name, "Cargo.toml"]) = true := by
    apply pushex8
    rcases createFilesT_post entries smid s8 l2 hcf1i
      ([projectNameOf name] ++ ["programs", projectNameOf name, "Cargo.toml"])
      (cargo_toml (projectNameOf name) template) (by rw [hent]; simp) with h | h
    · exact h
    · simp at h
  have dirProgP1 : lookupN s1 [projectNameOf name, "programs", projectNameOf name] =
      some .dir := by
    rcases hwf1 _ exPC1 (by simp) with h0 | hdir
    · simp at h0
    · simpa using hdir
  have dirProgs1 : lookupN s1 [projectNameOf name, "programs"] = some .dir := by
    have hex3 : pathExistsN s1 [projectNameOf name, "programs", projectNameOf name] =
        true := by simp [pathExistsN, dirProgP1]
    rcases hwf1 _ hex3 (by simp) with h0 | hdir
    · simp at h0
    · simpa using hdir
  -- the migrations directory
  have dirMigr1 : lookupN s1 [projectNameOf name, "migrations"] = some .dir := by
    refine create_test_files_dir_kind _ _ _ _ _ hctf _ (push10_dir _ ?_)
    have := mkdirFrom_post _ s8 [] pr9.1 pr9.2 heq9 [projectNameOf name, "migrations"]
      (by simp) (isPrefixB_refl _)
    simpa using this
  -- the branch-written files, at s1
  have hbranch1 : (javascript = true ∧
      (∃ d, lookupN s1 [projectNameOf name, "package.json"] = some (.file d)) ∧
      (∃ d, lookupN s1 [projectNameOf name, "migrations", "deploy.js"] =
        some (.file d))) ∨
    (javascript = false ∧
      (∃ d, lookupN s1 [projectNameOf name, "tsconfig.json"] = some (.file d)) ∧
      (∃ d, lookupN s1 [projectNameOf name, "package.json"] = some (.file d)) ∧
      (∃ d, lookupN s1 [projectNameOf name, "migrations", "deploy.ts"] =
        some (.file d))) := by
    rcases hbranch10 with ⟨hjs, hpkg, hdep⟩ | ⟨hjs, htsc, hpkg, hdep⟩
    · exact Or.inl ⟨hjs, create_test_files_file_kind _ _ _ _ _ hctf _ hpkg,
        create_test_files_file_kind _ _ _ _ _ hctf _ hdep⟩
    · exact Or.inr ⟨hjs, create_test_files_file_kind _ _ _ _ _ hctf _ htsc,
        create_test_files_file_kind _ _ _ _ _ hctf _ hpkg,
        create_test_files_file_kind _ _ _ _ _ hctf _ hdep⟩
  -- the tests directory and the test file
  obtain ⟨prt, hmkt, hwtt⟩ := create_test_files_inv _ _ _ _ _ hctf
  have dirTests1 : lookupN s1 [projectNameOf name, "tests"] = some .dir := by
    have := mkdirFrom_post _ s10 [] prt.1 prt.2 hmkt ([projectNameOf name] ++ ["tests"])
      (by simp) (isPrefixB_refl _)
    have h2 := writeT_dir_kind _ _ _ _ hwtt ([projectNameOf name] ++ ["tests"])
      (by simpa using this)
    simpa using h2
  have fileTest1 : ∃ d, lookupN s1
      [projectNameOf name, "tests", projectNameOf name ++ ".ts"] = some (.file d) := by
    obtain ⟨ht, _, _⟩ := writeT_some _ _ _ _ hwtt
    refine ⟨.text (ts_mocha (projectNameOf name) template), ?_⟩
    have : lookupN s1 ([projectNameOf name] ++ ["tests", projectNameOf name ++ ".ts"]) =
        some (.file (.text (ts_mocha (projectNameOf name) template))) := by
      rw [ht, lookupN_setN_self]
    simpa using this
  -- conclusion
  refine ⟨?_, ?_⟩
  · have hex1 : pathExistsN s1 [projectNameOf name] = true := by
      simp [pathExistsN, dirP1]
    unfold initModel
    simp [hnc, hex1]
  · exact initModel_force_from_populated name javascript template fresh2 license2
      testScript2 s1 hnc dirP1 dirApp1 blobR1 blobP1 fileAnchor1 fileGit1 filePret1
      dirProgs1 dirProgP1 (by simpa using exCargo1) dirMigr1 hbranch1 dirTests1 fileTest1

theorem init_rerun_witness :
    WFState ([] : FsState) ∧
    (initModel "my-app" false .basic false ⟨"K1"⟩ "MIT" "run-tests" ([] : FsState)).2 =
      none ∧
    initModel "my-app" false .basic false ⟨"K2"⟩ "ISC" "other-tests"
        (initModel "my-app" false .basic false ⟨"K1"⟩ "MIT" "run-tests" []).1 =
      ((initModel "my-app" false .basic false ⟨"K1"⟩ "MIT" "run-tests" []).1,
        some .workspaceExists) := by
  have hwf : WFState ([] : FsState) := by
    intro p hp
    simp [pathExistsN, lookupN] at hp
  have h2 : (initModel "my-app" false .basic false ⟨"K1"⟩ "MIT" "run-tests"
      ([] : FsState)).2 = none := by
    decide
  refine ⟨hwf, h2, ?_⟩
  have h1 : initModel "my-app" false .basic false ⟨"K1"⟩ "MIT" "run-tests" ([] : FsState) =
      ((initModel "my-app" false .basic false ⟨"K1"⟩ "MIT" "run-tests" []).1, none) := by
    rw [← h2]
  exact (init_rerun "my-app" false .basic ⟨"K1"⟩ ⟨"K2"⟩ "MIT" "run-tests" "ISC"
    "other-tests" [] _ hwf h1).1
